import Mathlib

/-!
Verification of the storage routing core of commissaire-service
(commissaire_service/storage/__init__.py and
commissaire_service/storage/storehandlermanager.py).

The embedding translates the StorageService registration and dispatch
logic directly from the Python source:

* Python dicts become association lists with dict-faithful operations
  (lookup of the first binding, insert-or-replace, pop).
* Handler instances are identified by numbers drawn from a counter in
  the service state; constructing a handler emits a create event, and
  each handler primitive invocation emits an event, so that claims about
  "zero handler calls" and "constructor invoked at most once" are
  statements about the event trace.
* External collaborators (the commissaire.models registry, the plugin
  loader, the concrete store handlers) are parameters, modelled from the
  spec's interface contracts: a model type descriptor carries a name and
  a secret flag; a model record carries its type, its optional Host
  source attribute and the outcome of its validate method; a handler
  type carries its module identity and the outcome of check_config; a
  backend carries the outcomes of the save/get/delete primitives.
-/

deriving instance DecidableEq for Except

/-- Leading-whitespace removal on a character list. -/
def dropLeadingSpaces : List Char → List Char
  | [] => []
  | c :: cs => if c.isWhitespace then dropLeadingSpaces cs else c :: cs

/-- Whitespace strip from both ends, modelling the Python str.strip
calls of the registration and routing code.  Defined structurally on
the character list so that it evaluates inside the kernel. -/
def strTrim (s : String) : String :=
  String.mk ((dropLeadingSpaces (dropLeadingSpaces s.data).reverse).reverse)

/-- Association list lookup: value of the first binding of a key,
mirroring Python dict lookup. -/
def lookupA {α β : Type} [DecidableEq α] : List (α × β) → α → Option β
  | [], _ => none
  | (a, b) :: l, k => if a = k then some b else lookupA l k

/-- Association list insert-or-replace, mirroring Python dict item
assignment: an existing binding is replaced in place, a new binding is
appended at the end. -/
def setA {α β : Type} [DecidableEq α] : List (α × β) → α → β → List (α × β)
  | [], k, v => [(k, v)]
  | (a, b) :: l, k, v => if a = k then (k, v) :: l else (a, b) :: setA l k v

/-- Association list removal of every binding of a key, mirroring
Python dict pop on a dict whose keys are unique. -/
def eraseA {α β : Type} [DecidableEq α] (l : List (α × β)) (k : α) : List (α × β) :=
  l.filter (fun p => p.1 ≠ k)

/-- Model type descriptor for an entry of the commissaire.models
registry, modelled from the spec: a canonical name plus whether the
model type is secret-bearing (SecretModel-derived). -/
structure ModelDesc where
  name : String
  isSecret : Bool
deriving DecidableEq, Repr

/-- Descriptor of the Host model type, whose instances carry the
source routing override. -/
def hostType : ModelDesc := { name := "Host", isSecret := false }

/-- Model record instance, modelled from the spec's record contract:
its model type, the optional Host source attribute (defaulting to the
empty string, as read by getattr), the outcome of its validate method,
and a tag distinguishing distinct records of one type. -/
structure ModelInst where
  mtype : ModelDesc
  source : String := ""
  valid : Bool := true
  tag : Nat := 0
deriving DecidableEq, Repr

/-- Store handler type, modelled from the spec's capability contract:
the implementation identity used for name derivation, and the outcome
of the static check_config validation. -/
structure HandlerType where
  module : String
  checkOk : Bool
deriving DecidableEq, Repr

/-- Configuration value: a string or a list of strings, covering the
keys the registration code reads (type, name, models). -/
inductive CVal
  | s (v : String)
  | ls (v : List String)
deriving DecidableEq, Repr

/-- Configuration dictionary. -/
abbrev Config := List (String × CVal)

/-- Store handler definition, the registered triple
(handler_type, config, matched model types). -/
structure StoreDef where
  htype : HandlerType
  config : Config
  modelTypes : List ModelDesc
deriving DecidableEq, Repr

/-- Cause of a ConfigurationError raised during registration. -/
inductive RegError
  | missingType
  | badPlugin (moduleName : String)
  | noMatch (pattern : String)
  | checkFailed
  | dupName (n : String)
  | dupModel (t : String)
deriving DecidableEq, Repr

/-- Errors surfaced by the storage core. -/
inductive StorageErr
  | configError (e : RegError)
  | keyError (k : String)
  | validationError
  | jsonError
  | typeError
  | backendError
deriving DecidableEq, Repr

/-- Observable handler interaction: handler construction and each
handler primitive invocation. -/
inductive Event
  | create (moduleName : String) (h : Nat)
  | save (h : Nat) (m : ModelInst)
  | get (h : Nat) (m : ModelInst)
  | delete (h : Nat) (m : ModelInst)
  | list (h : Nat) (m : ModelInst)
deriving DecidableEq, Repr

/-- Mutable state of a StorageService instance: the two definition maps
and the two handler-instance caches from StorageService.__init__, plus
the counter producing handler instance identities. -/
structure ServiceState where
  defsByName : List (String × StoreDef)
  defsByType : List (ModelDesc × StoreDef)
  handlersByName : List (String × Nat)
  handlersByType : List (ModelDesc × Nat)
  nextId : Nat
deriving DecidableEq, Repr

/-- Empty service state, as set up at the top of
StorageService.__init__. -/
def ServiceState.empty : ServiceState :=
  { defsByName := [], defsByType := [], handlersByName := [],
    handlersByType := [], nextId := 0 }

/-- Glob match worker: every recursive call shrinks the combined
length of pattern and string, so the fuel bound keeps the recursion
structural (and hence evaluable). -/
def globMatchAux : Nat → List Char → List Char → Bool
  | 0, _, _ => false
  | Nat.succ fuel, ps, cs =>
    match ps, cs with
    | [], [] => true
    | '*' :: ps, [] => globMatchAux fuel ps []
    | _ :: _, [] => false
    | [], _ :: _ => false
    | p :: ps, c :: cs =>
      if p = '*' then globMatchAux fuel ps (c :: cs) || globMatchAux fuel ('*' :: ps) cs
      else if p = '?' then globMatchAux fuel ps cs
      else p = c && globMatchAux fuel ps cs

/-- Glob match of a pattern against a name, translating the subset of
fnmatch semantics the configuration code relies on: a star matches any
run of characters, a question mark matches one character, anything else
matches literally. -/
def globMatch (ps cs : List Char) : Bool :=
  globMatchAux (ps.length + cs.length + 1) ps cs

/-- Candidate handler names tried by the naming loop: the module name
itself, then module-1, module-2 and so on. -/
def nameCandidate (moduleName : String) : Nat → String
  | 0 => moduleName
  | Nat.succ k => moduleName ++ "-" ++ Nat.repr (k + 1)

/-- Naming loop of _register_store_handler: starting from candidate
index k, advance past candidates colliding with registered names.  The
fuel bound makes the while loop structurally recursive. -/
def deriveNameAux (taken : List String) (moduleName : String) : Nat → Nat → String
  | k, 0 => nameCandidate moduleName k
  | k, Nat.succ fuel =>
    let n := nameCandidate moduleName k
    if n ∈ taken then deriveNameAux taken moduleName (k + 1) fuel else n

/-- Unique-name derivation from the handler module identity, as in
_register_store_handler when the configured name is absent or blank. -/
def deriveName (taken : List String) (moduleName : String) : String :=
  deriveNameAux taken moduleName 0 (taken.length + 1)

/-- Pattern-to-model-type matching loop of _register_store_handler:
each pattern is matched by fnmatch against the model type names; a
pattern matching nothing is a ConfigurationError, otherwise the matched
descriptors accumulate into a set. -/
def matchPatterns (modelTypes : List ModelDesc) : List String → Except String (List ModelDesc)
  | [] => .ok []
  | p :: ps =>
    let ms := modelTypes.filter (fun d => globMatch p.data d.name.data)
    if ms.isEmpty then .error p
    else
      match matchPatterns modelTypes ps with
      | .error q => .error q
      | .ok rest => .ok ((ms ++ rest).eraseDups)

/-- Trimmed string value of the name key of a config, as read by
config.get with empty-string default followed by strip. -/
def configName (c : Config) : String :=
  strTrim
    (match lookupA c "name" with
     | some (CVal.s v) => v
     | _ => "")

/-- Final stage of _register_store_handler, after the name has been
resolved: the duplicate-name check, the duplicate-model-type ownership
check, and the insertion of the definition into both maps once all
checks pass. -/
def registerFinish (st : ServiceState) (ht : HandlerType)
    (matched : List ModelDesc) (name : String) (config : Config) :
    Config × ServiceState × Except StorageErr Unit :=
  if name ∈ st.defsByName.map Prod.fst then
    (config, st, .error (.configError (.dupName name)))
  else
    match matched.find? (fun d => decide (d ∈ st.defsByType.map Prod.fst)) with
    | some d => (config, st, .error (.configError (.dupModel d.name)))
    | none =>
      let defn : StoreDef :=
        { htype := ht, config := config, modelTypes := matched }
      (config,
       { st with
         defsByName := st.defsByName ++ [(name, defn)],
         defsByType := st.defsByType ++ matched.map (fun d => (d, defn)) },
       .ok ())

/-- Patterns read from the models key of a configuration, defaulting to
a single star pattern; a plain string value is iterated character by
character, as Python iteration over a string would. -/
def configPatterns (c : Config) : List String :=
  match lookupA c "models" with
  | none => ["*"]
  | some (CVal.ls l) => l
  | some (CVal.s v) => v.data.map (fun ch => String.mk [ch])

/-- Name-resolution stage of _register_store_handler: an explicit
non-blank trimmed name is used directly; otherwise a unique name is
derived from the handler module identity and written back into the
config. -/
def registerNamed (st : ServiceState) (ht : HandlerType)
    (matched : List ModelDesc) (config : Config) :
    Config × ServiceState × Except StorageErr Unit :=
  if configName config = "" then
    let n := deriveName (st.defsByName.map Prod.fst) ht.module
    registerFinish st ht matched n (setA config "name" (CVal.s n))
  else
    registerFinish st ht matched (configName config) config

/-- Pattern-matching and config-checking stage of
_register_store_handler: the models key is popped, each pattern is
matched against the model type registry, and the handler type's static
config check runs on the popped config. -/
def registerMatched (modelTypes : List ModelDesc) (st : ServiceState)
    (ht : HandlerType) (config : Config) :
    Config × ServiceState × Except StorageErr Unit :=
  match matchPatterns modelTypes (configPatterns config) with
  | .error p =>
    (eraseA config "models", st, .error (.configError (.noMatch p)))
  | .ok matched =>
    if ht.checkOk = false then
      (eraseA config "models", st, .error (.configError .checkFailed))
    else
      registerNamed st ht matched (eraseA config "models")

/-- Registration of a store handler from a configuration dictionary,
translated from StorageService._register_store_handler.  The plugin
loader and the model type registry are parameters.  The returned config
and state reflect every mutation performed up to the point of return or
raise, in source order: the type key is popped, the models key is
popped, the derived name is written back, and the definition maps are
only touched after all checks pass. -/
def registerStoreHandler (plugins : String → Option HandlerType)
    (modelTypes : List ModelDesc) (st : ServiceState) (config : Config) :
    Config × ServiceState × Except StorageErr Unit :=
  match lookupA config "type" with
  | none => (config, st, .error (.configError .missingType))
  | some (CVal.ls _) =>
    (eraseA config "type", st, .error (.configError (.badPlugin "")))
  | some (CVal.s moduleName) =>
    match plugins moduleName with
    | none =>
      (eraseA config "type", st, .error (.configError (.badPlugin moduleName)))
    | some ht => registerMatched modelTypes st ht (eraseA config "type")

/-- Backend behavior of handler instances, modelled from the spec's
store handler capability contract: the outcome of each primitive for a
given handler instance and record.  An error stands for any exception
the handler raises. -/
structure Backend where
  saveFn : Nat → ModelInst → Except Unit ModelInst
  getFn : Nat → ModelInst → Except Unit ModelInst
  deleteFn : Nat → ModelInst → Except Unit Unit

/-- Backend whose save and get return their input unchanged and whose
delete always succeeds. -/
def trivialBackend : Backend :=
  { saveFn := fun _ m => .ok m,
    getFn := fun _ m => .ok m,
    deleteFn := fun _ _ => .ok () }

/-- Handler instantiation, translated from
StorageService._create_handler: a fresh instance is constructed from
the definition, cached under the definition's config name, and cached
under every model type the definition owns. -/
def createHandler (st : ServiceState) (defn : StoreDef) :
    Nat × ServiceState × List Event :=
  let h := st.nextId
  let nm : String :=
    match lookupA defn.config "name" with
    | some (CVal.s v) => v
    | _ => ""
  (h,
   { st with
     nextId := h + 1,
     handlersByName := setA st.handlersByName nm h,
     handlersByType :=
       defn.modelTypes.foldl (fun hs d => setA hs d h) st.handlersByType },
   [Event.create defn.htype.module h])

/-- Model-type branch of StorageService._get_handler: look up a cached
instance for the model type, else instantiate from the definition for
the model type, else raise KeyError. -/
def getHandlerByType (st : ServiceState) (t : ModelDesc) :
    Except StorageErr (Nat × ServiceState × List Event) :=
  match lookupA st.handlersByType t with
  | some h => .ok (h, st, [])
  | none =>
    match lookupA st.defsByType t with
    | some defn => .ok (createHandler st defn)
    | none => .error (.keyError t.name)

/-- Handler resolution, translated from StorageService._get_handler: a
Host record with a non-empty trimmed source is routed through the
by-name maps and never falls back to the type-based maps; every other
record (and a Host with a blank source) is routed by model type. -/
def getHandler (st : ServiceState) (m : ModelInst) :
    Except StorageErr (Nat × ServiceState × List Event) :=
  if m.mtype = hostType ∧ strTrim m.source ≠ "" then
    match lookupA st.handlersByName (strTrim m.source) with
    | some h => .ok (h, st, [])
    | none =>
      match lookupA st.defsByName (strTrim m.source) with
      | some defn => .ok (createHandler st defn)
      | none => .error (.keyError (strTrim m.source))
  else
    getHandlerByType st m.mtype

/-- Save of one model, translated from StorageService._save_model: the
handler is resolved first, then the model is validated, then the
handler save primitive is invoked. -/
def saveModel (be : Backend) (st : ServiceState) (m : ModelInst) :
    ServiceState × List Event × Except StorageErr ModelInst :=
  match getHandler st m with
  | .error e => (st, [], .error e)
  | .ok (h, st', ev) =>
    if m.valid = false then (st', ev, .error .validationError)
    else
      match be.saveFn h m with
      | .ok r => (st', ev ++ [Event.save h m], .ok r)
      | .error _ => (st', ev ++ [Event.save h m], .error .backendError)

/-- Get of one model, translated from StorageService._get_model: the
handler is resolved, its get primitive is invoked, and the returned
record is validated before being returned. -/
def getModel (be : Backend) (st : ServiceState) (m : ModelInst) :
    ServiceState × List Event × Except StorageErr ModelInst :=
  match getHandler st m with
  | .error e => (st, [], .error e)
  | .ok (h, st', ev) =>
    match be.getFn h m with
    | .error _ => (st', ev ++ [Event.get h m], .error .backendError)
    | .ok r =>
      if r.valid = false then (st', ev ++ [Event.get h m], .error .validationError)
      else (st', ev ++ [Event.get h m], .ok r)

/-- Delete of one model, translated from StorageService._delete_model. -/
def deleteModel (be : Backend) (st : ServiceState) (m : ModelInst) :
    ServiceState × List Event × Except StorageErr Unit :=
  match getHandler st m with
  | .error e => (st, [], .error e)
  | .ok (h, st', ev) =>
    match be.deleteFn h m with
    | .ok _ => (st', ev ++ [Event.delete h m], .ok ())
    | .error _ => (st', ev ++ [Event.delete h m], .error .backendError)

/-- One inbound model representation, modelled from the spec's model
registry contract: a JSON string that fails to parse as an object, a
representation the model type constructor rejects as structurally
invalid, or a representation building into a given record. -/
inductive RawRep
  | malformedStr
  | bad
  | good (m : ModelInst)
deriving DecidableEq, Repr

/-- Model construction, translated from StorageService._build_model:
string input is JSON-parsed first, then the model type is resolved by
name in the registry (KeyError on failure), then the type constructor
builds the record (structural failure is a TypeError). -/
def buildModel (modelTypes : List ModelDesc) (typeName : String) (r : RawRep) :
    Except StorageErr ModelInst :=
  match r with
  | .malformedStr => .error .jsonError
  | _ =>
    match modelTypes.find? (fun d => d.name = typeName) with
    | none => .error (.keyError typeName)
    | some d =>
      match r with
      | .malformedStr => .error .jsonError
      | .bad => .error .typeError
      | .good m => .ok { m with mtype := d }

/-- Construction of every model of a batch, in input order, stopping at
the first failure: the list comprehension at the top of the list
branches of on_save, on_get and on_delete. -/
def buildAll (modelTypes : List ModelDesc) (typeName : String) :
    List RawRep → Except StorageErr (List ModelInst)
  | [] => .ok []
  | r :: rs =>
    match buildModel modelTypes typeName r with
    | .error e => .error e
    | .ok m =>
      match buildAll modelTypes typeName rs with
      | .error e => .error e
      | .ok ms => .ok (m :: ms)

/-- Sequential save of built models, stopping at the first failure: the
list comprehension over _save_model in on_save. -/
def saveLoop (be : Backend) (st : ServiceState) :
    List ModelInst → ServiceState × List Event × Except StorageErr (List ModelInst)
  | [] => (st, [], .ok [])
  | m :: ms =>
    match saveModel be st m with
    | (st₁, ev₁, .error e) => (st₁, ev₁, .error e)
    | (st₁, ev₁, .ok saved) =>
      match saveLoop be st₁ ms with
      | (st₂, ev₂, .error e) => (st₂, ev₁ ++ ev₂, .error e)
      | (st₂, ev₂, .ok l) => (st₂, ev₁ ++ ev₂, .ok (saved :: l))

/-- Sequential get of built models, stopping at the first failure. -/
def getLoop (be : Backend) (st : ServiceState) :
    List ModelInst → ServiceState × List Event × Except StorageErr (List ModelInst)
  | [] => (st, [], .ok [])
  | m :: ms =>
    match getModel be st m with
    | (st₁, ev₁, .error e) => (st₁, ev₁, .error e)
    | (st₁, ev₁, .ok got) =>
      match getLoop be st₁ ms with
      | (st₂, ev₂, .error e) => (st₂, ev₁ ++ ev₂, .error e)
      | (st₂, ev₂, .ok l) => (st₂, ev₁ ++ ev₂, .ok (got :: l))

/-- Sequential delete of built models, stopping at the first failure. -/
def deleteLoop (be : Backend) (st : ServiceState) :
    List ModelInst → ServiceState × List Event × Except StorageErr Unit
  | [] => (st, [], .ok ())
  | m :: ms =>
    match deleteModel be st m with
    | (st₁, ev₁, .error e) => (st₁, ev₁, .error e)
    | (st₁, ev₁, .ok _) =>
      match deleteLoop be st₁ ms with
      | (st₂, ev₂, r₂) => (st₂, ev₁ ++ ev₂, r₂)

/-- Inbound payload of a storage request: a single representation or an
ordered list of representations. -/
inductive JsonData
  | one (r : RawRep)
  | many (rs : List RawRep)
deriving DecidableEq, Repr

/-- Result shape mirroring the input shape. -/
inductive OpResult
  | one (m : ModelInst)
  | many (ms : List ModelInst)
deriving DecidableEq, Repr

/-- Handler for storage.save, translated from StorageService.on_save:
the list branch builds all models first so invalid input is caught
before touching permanent storage, then saves them in order. -/
def onSave (be : Backend) (modelTypes : List ModelDesc) (st : ServiceState)
    (typeName : String) (jd : JsonData) :
    ServiceState × List Event × Except StorageErr OpResult :=
  match jd with
  | .many rs =>
    match buildAll modelTypes typeName rs with
    | .error e => (st, [], .error e)
    | .ok ms =>
      match saveLoop be st ms with
      | (st', ev, .error e) => (st', ev, .error e)
      | (st', ev, .ok l) => (st', ev, .ok (.many l))
  | .one r =>
    match buildModel modelTypes typeName r with
    | .error e => (st, [], .error e)
    | .ok m =>
      match saveModel be st m with
      | (st', ev, .error e) => (st', ev, .error e)
      | (st', ev, .ok saved) => (st', ev, .ok (.one saved))

/-- Handler for storage.get, translated from StorageService.on_get. -/
def onGet (be : Backend) (modelTypes : List ModelDesc) (st : ServiceState)
    (typeName : String) (jd : JsonData) :
    ServiceState × List Event × Except StorageErr OpResult :=
  match jd with
  | .many rs =>
    match buildAll modelTypes typeName rs with
    | .error e => (st, [], .error e)
    | .ok ms =>
      match getLoop be st ms with
      | (st', ev, .error e) => (st', ev, .error e)
      | (st', ev, .ok l) => (st', ev, .ok (.many l))
  | .one r =>
    match buildModel modelTypes typeName r with
    | .error e => (st, [], .error e)
    | .ok m =>
      match getModel be st m with
      | (st', ev, .error e) => (st', ev, .error e)
      | (st', ev, .ok got) => (st', ev, .ok (.one got))

/-- Handler for storage.delete, translated from
StorageService.on_delete: single input is normalized into a list, all
models are built first, then each is deleted. -/
def onDelete (be : Backend) (modelTypes : List ModelDesc) (st : ServiceState)
    (typeName : String) (jd : JsonData) :
    ServiceState × List Event × Except StorageErr Unit :=
  let rs := match jd with | .one r => [r] | .many l => l
  match buildAll modelTypes typeName rs with
  | .error e => (st, [], .error e)
  | .ok ms => deleteLoop be st ms

/-- Key-coherence of the by-name definition map: the name stored inside
a definition's config equals the name the definition is registered
under.  Auto-derived names are always written back into the config, so
this holds whenever every explicitly configured name is free of
surrounding whitespace. -/
def NamesConsistent (st : ServiceState) : Prop :=
  ∀ p ∈ st.defsByName, lookupA p.2.config "name" = some (CVal.s p.1)

/-- Key-coherence of the by-type definition map: a definition is
registered under each of its own model types. -/
def TypeCoverage (st : ServiceState) : Prop :=
  ∀ p ∈ st.defsByType, p.1 ∈ p.2.modelTypes

/-- A sequence of registration calls on one registry, as performed by
StorageService._configure / the test suite: each call threads the
resulting service state into the next (a failing call leaves the state
unchanged, so the sequence simply continues from the pre-call state). -/
def registerAll (plugins : String → Option HandlerType) (modelTypes : List ModelDesc)
    (st : ServiceState) : List Config → ServiceState
  | [] => st
  | c :: cs =>
    registerAll plugins modelTypes
      (registerStoreHandler plugins modelTypes st c).2.1 cs

/-- Concrete plugin table used to exercise registration sequences: a
single importable handler module named t. -/
def seqPlugins : String → Option HandlerType :=
  fun s => if s = "t" then some ⟨"m", true⟩ else none

/-- Concrete model-type registry used to exercise registration
sequences. -/
def seqTypes : List ModelDesc := [⟨"Host", false⟩, ⟨"Cluster", false⟩]

/-- Concrete two-call registration sequence: handler a for Host, then
handler b for Cluster. -/
def seqConfigs : List Config :=
  [[("type", CVal.s "t"), ("name", CVal.s "a"), ("models", CVal.ls ["Host"])],
   [("type", CVal.s "t"), ("name", CVal.s "b"), ("models", CVal.ls ["Cluster"])]]

@[simp] theorem lookupA_nil {α β : Type} [DecidableEq α] (k : α) :
    lookupA ([] : List (α × β)) k = none := rfl

@[simp] theorem lookupA_cons {α β : Type} [DecidableEq α] (a : α) (b : β) (l : List (α × β)) (k : α) :
    lookupA ((a, b) :: l) k = if a = k then some b else lookupA l k := rfl

theorem lookupA_mem {α β : Type} [DecidableEq α] {l : List (α × β)} {k : α} {b : β}
    (h : lookupA l k = some b) : (k, b) ∈ l := by
  induction l with
  | nil => simp at h
  | cons p l ih =>
    obtain ⟨a, v⟩ := p
    by_cases hak : a = k
    · subst hak
      simp only [lookupA_cons, if_pos rfl] at h
      cases h
      exact List.mem_cons_self _ _
    · simp only [lookupA_cons, if_neg hak] at h
      exact List.mem_cons_of_mem _ (ih h)

@[simp] theorem lookupA_setA_self {α β : Type} [DecidableEq α] (l : List (α × β)) (k : α) (v : β) :
    lookupA (setA l k v) k = some v := by
  induction l with
  | nil => simp [setA, lookupA]
  | cons p l ih =>
    obtain ⟨a, b⟩ := p
    by_cases hak : a = k
    · simp [setA, hak, lookupA]
    · simp [setA, hak, lookupA, ih]

theorem lookupA_setA_ne {α β : Type} [DecidableEq α] (l : List (α × β)) (k k' : α) (v : β)
    (h : k ≠ k') : lookupA (setA l k v) k' = lookupA l k' := by
  induction l with
  | nil => simp [setA, lookupA, h]
  | cons p l ih =>
    obtain ⟨a, b⟩ := p
    by_cases hak : a = k
    · subst hak
      simp [setA, lookupA, h, ih]
    · simp only [setA, if_neg hak, lookupA_cons]
      by_cases hak' : a = k'
      · simp [hak']
      · simp [hak', ih]

theorem lookupA_append {α β : Type} [DecidableEq α] (l₁ l₂ : List (α × β)) (k : α) :
    lookupA (l₁ ++ l₂) k =
      match lookupA l₁ k with
      | some v => some v
      | none => lookupA l₂ k := by
  induction l₁ with
  | nil => simp
  | cons p l ih =>
    obtain ⟨a, b⟩ := p
    by_cases hak : a = k
    · simp [hak]
    · simp [hak, ih]

@[simp] theorem lookupA_eraseA_self {α β : Type} [DecidableEq α] (l : List (α × β)) (k : α) :
    lookupA (eraseA l k) k = none := by
  induction l with
  | nil => rfl
  | cons p l ih =>
    obtain ⟨a, b⟩ := p
    by_cases hak : a = k
    · simpa [eraseA, hak] using ih
    · simpa [eraseA, hak, lookupA] using ih

theorem lookupA_eraseA_ne {α β : Type} [DecidableEq α] (l : List (α × β)) (k k' : α)
    (h : k ≠ k') : lookupA (eraseA l k) k' = lookupA l k' := by
  induction l with
  | nil => rfl
  | cons p l ih =>
    obtain ⟨a, b⟩ := p
    by_cases hak : a = k
    · subst hak
      have : a ≠ k' := h
      simpa [eraseA, lookupA, this] using ih
    · by_cases hak' : a = k'
      · subst hak'
        simp [eraseA, List.filter, hak, lookupA]
      · simpa [eraseA, List.filter, hak, lookupA, hak'] using ih

theorem lookupA_foldl_setA {β : Type} (h : β) (types : List ModelDesc)
    (hs : List (ModelDesc × β)) (k : ModelDesc) :
    lookupA (types.foldl (fun a t => setA a t h) hs) k =
      if k ∈ types then some h else lookupA hs k := by
  induction types generalizing hs with
  | nil => simp
  | cons d rest ih =>
    simp only [List.foldl_cons]
    rw [ih]
    by_cases hk : k ∈ rest
    · simp [hk, List.mem_cons]
    · by_cases hkd : k = d
      · subst hkd
        simp [hk, List.mem_cons]
      · rw [lookupA_setA_ne _ _ _ _ (fun hh => hkd hh.symm)]
        simp [hk, hkd, List.mem_cons]

theorem deriveNameAux_spec (taken : List String) (moduleName : String) :
    ∀ fuel k, ∃ K, k ≤ K ∧
      deriveNameAux taken moduleName k fuel = nameCandidate moduleName K ∧
      ∀ j, k ≤ j → j < K → nameCandidate moduleName j ∈ taken := by
  intro fuel
  induction fuel with
  | zero =>
    intro k
    exact ⟨k, le_refl k, rfl, fun j hkj hjk => absurd (lt_of_le_of_lt hkj hjk) (lt_irrefl k)⟩
  | succ fuel ih =>
    intro k
    by_cases hmem : nameCandidate moduleName k ∈ taken
    · obtain ⟨K, hkK, heq, hall⟩ := ih (k + 1)
      refine ⟨K, le_trans (Nat.le_succ k) hkK, ?_, ?_⟩
      · simp [deriveNameAux, hmem, heq]
      · intro j hkj hjK
        rcases Nat.eq_or_lt_of_le hkj with hkj' | hkj'
        · exact hkj' ▸ hmem
        · exact hall j hkj' hjK
    · exact ⟨k, le_refl k, by simp [deriveNameAux, hmem], 
        fun j hkj hjk => absurd (lt_of_le_of_lt hkj hjk) (lt_irrefl k)⟩

theorem deriveName_spec (taken : List String) (moduleName : String) :
    ∃ K, deriveName taken moduleName = nameCandidate moduleName K ∧
      ∀ j, j < K → nameCandidate moduleName j ∈ taken := by
  obtain ⟨K, _, heq, hall⟩ := deriveNameAux_spec taken moduleName (taken.length + 1) 0
  exact ⟨K, heq, fun j hj => hall j (Nat.zero_le j) hj⟩

theorem buildAll_ok_forall {modelTypes : List ModelDesc} {typeName : String}
    {rs : List RawRep} {ms : List ModelInst}
    (h : buildAll modelTypes typeName rs = .ok ms) :
    ∀ r ∈ rs, ∃ m, buildModel modelTypes typeName r = .ok m := by
  induction rs generalizing ms with
  | nil => intro r hr; simp at hr
  | cons r0 rest ih =>
    intro r hr
    simp only [buildAll] at h
    rcases hb : buildModel modelTypes typeName r0 with e | m0
    · rw [hb] at h; exact absurd h (by simp)
    · rw [hb] at h
      rcases hrest : buildAll modelTypes typeName rest with e | ms0
      · rw [hrest] at h; exact absurd h (by simp)
      · rcases List.mem_cons.mp hr with hr0 | hrr
        · exact hr0 ▸ ⟨m0, hb⟩
        · exact ih hrest r hrr

theorem buildAll_error_of_bad {modelTypes : List ModelDesc} {typeName : String}
    {rs : List RawRep} {r : RawRep} {e : StorageErr} (hr : r ∈ rs)
    (hbad : buildModel modelTypes typeName r = .error e) :
    ∃ e', buildAll modelTypes typeName rs = .error e' := by
  rcases hall : buildAll modelTypes typeName rs with e' | ms
  · exact ⟨e', rfl⟩
  · obtain ⟨m, hm⟩ := buildAll_ok_forall hall r hr
    rw [hbad] at hm
    exact absurd hm (by simp)

theorem registerFinish_ok {st : ServiceState} {ht : HandlerType}
    {matched : List ModelDesc} {name : String} {config c' : Config} {st' : ServiceState}
    (h : registerFinish st ht matched name config = (c', st', .ok ())) :
    c' = config ∧
    name ∉ st.defsByName.map Prod.fst ∧
    (∀ d ∈ matched, d ∉ st.defsByType.map Prod.fst) ∧
    st'.defsByName = st.defsByName ++ [(name, ⟨ht, config, matched⟩)] ∧
    st'.defsByType = st.defsByType ++ matched.map (fun d => (d, ⟨ht, config, matched⟩)) ∧
    st'.handlersByName = st.handlersByName ∧
    st'.handlersByType = st.handlersByType ∧
    st'.nextId = st.nextId := by
  unfold registerFinish at h
  split at h
  · simp at h
  · rename_i hname
    split at h
    · simp at h
    · rename_i d hfind
      simp only [Prod.mk.injEq] at h
      obtain ⟨hc, hst, -⟩ := h
      have hnone := List.find?_eq_none.mp hfind
      subst hc
      subst hst
      refine ⟨rfl, hname, ?_, rfl, rfl, rfl, rfl, rfl⟩
      intro d hd hmem
      exact absurd (decide_eq_true hmem) (by simpa using hnone d hd)

theorem registerFinish_error {st : ServiceState} {ht : HandlerType}
    {matched : List ModelDesc} {name : String} {config c' : Config} {st' : ServiceState}
    {e : StorageErr}
    (h : registerFinish st ht matched name config = (c', st', .error e)) :
    c' = config ∧ st' = st ∧
    (e = .configError (.dupName name) ∨
     ∃ t, t ∈ matched ∧ t ∈ st.defsByType.map Prod.fst ∧
       e = .configError (.dupModel t.name)) := by
  unfold registerFinish at h
  split at h
  · simp only [Prod.mk.injEq] at h
    obtain ⟨hc, hst, he⟩ := h
    exact ⟨hc.symm, hst.symm, Or.inl (by injection he.symm)⟩
  · split at h
    · rename_i d hfind
      simp only [Prod.mk.injEq] at h
      obtain ⟨hc, hst, he⟩ := h
      refine ⟨hc.symm, hst.symm, Or.inr ⟨d, List.mem_of_find?_eq_some hfind, ?_, by injection he.symm⟩⟩
      simpa using List.find?_some hfind
    · simp at h

theorem configName_eraseA {c : Config} {k : String} (h : k ≠ "name") :
    configName (eraseA c k) = configName c := by
  unfold configName
  rw [lookupA_eraseA_ne _ _ _ h]

theorem registerNamed_ok {st : ServiceState} {ht : HandlerType}
    {matched : List ModelDesc} {config c' : Config} {st' : ServiceState}
    (h : registerNamed st ht matched config = (c', st', .ok ())) :
    ∃ name,
      ((configName config ≠ "" ∧ name = configName config ∧ c' = config) ∨
       (configName config = "" ∧
        name = deriveName (st.defsByName.map Prod.fst) ht.module ∧
        c' = setA config "name" (CVal.s name))) ∧
      name ∉ st.defsByName.map Prod.fst ∧
      (∀ d ∈ matched, d ∉ st.defsByType.map Prod.fst) ∧
      st'.defsByName = st.defsByName ++ [(name, ⟨ht, c', matched⟩)] ∧
      st'.defsByType = st.defsByType ++ matched.map (fun d => (d, ⟨ht, c', matched⟩)) ∧
      st'.handlersByName = st.handlersByName ∧
      st'.handlersByType = st.handlersByType ∧
      st'.nextId = st.nextId := by
  unfold registerNamed at h
  split at h
  · rename_i hblank
    obtain ⟨hc, hfresh, hdisj, hdn, hdt, hhn, hht, hid⟩ := registerFinish_ok h
    subst hc
    exact ⟨_, Or.inr ⟨hblank, rfl, rfl⟩, hfresh, hdisj, hdn, hdt, hhn, hht, hid⟩
  · rename_i hblank
    obtain ⟨hc, hfresh, hdisj, hdn, hdt, hhn, hht, hid⟩ := registerFinish_ok h
    subst hc
    exact ⟨_, Or.inl ⟨hblank, rfl, rfl⟩, hfresh, hdisj, hdn, hdt, hhn, hht, hid⟩

theorem registerMatched_ok {modelTypes : List ModelDesc} {st : ServiceState}
    {ht : HandlerType} {config c' : Config} {st' : ServiceState}
    (h : registerMatched modelTypes st ht config = (c', st', .ok ())) :
    ∃ matched,
      matchPatterns modelTypes (configPatterns config) = .ok matched ∧
      ht.checkOk = true ∧
      registerNamed st ht matched (eraseA config "models") = (c', st', .ok ()) := by
  unfold registerMatched at h
  split at h
  · simp at h
  · rename_i matched hmp
    split at h
    · simp at h
    · rename_i hchk
      rw [Bool.not_eq_false] at hchk
      exact ⟨matched, hmp, hchk, h⟩

theorem register_ok_cases {pl : String → Option HandlerType} {mts : List ModelDesc}
    {st : ServiceState} {c c' : Config} {st' : ServiceState}
    (h : registerStoreHandler pl mts st c = (c', st', .ok ())) :
    ∃ moduleName ht matched name,
      lookupA c "type" = some (CVal.s moduleName) ∧
      pl moduleName = some ht ∧
      matchPatterns mts (configPatterns (eraseA c "type")) = .ok matched ∧
      ht.checkOk = true ∧
      ((configName c ≠ "" ∧ name = configName c ∧
        c' = eraseA (eraseA c "type") "models") ∨
       (configName c = "" ∧
        name = deriveName (st.defsByName.map Prod.fst) ht.module ∧
        c' = setA (eraseA (eraseA c "type") "models") "name" (CVal.s name))) ∧
      name ∉ st.defsByName.map Prod.fst ∧
      (∀ d ∈ matched, d ∉ st.defsByType.map Prod.fst) ∧
      st'.defsByName = st.defsByName ++ [(name, ⟨ht, c', matched⟩)] ∧
      st'.defsByType = st.defsByType ++ matched.map (fun d => (d, ⟨ht, c', matched⟩)) ∧
      st'.handlersByName = st.handlersByName ∧
      st'.handlersByType = st.handlersByType ∧
      st'.nextId = st.nextId := by
  have hcn : configName (eraseA (eraseA c "type") "models") = configName c := by
    rw [configName_eraseA (by decide), configName_eraseA (by decide)]
  unfold registerStoreHandler at h
  split at h
  · simp at h
  · simp at h
  · rename_i moduleName htv
    split at h
    · simp at h
    · rename_i ht hpl
      obtain ⟨matched, hmp, hchk, hnamed⟩ := registerMatched_ok h
      obtain ⟨name, hname, hfresh, hdisj, hdn, hdt, hhn, hht, hid⟩ := registerNamed_ok hnamed
      refine ⟨moduleName, ht, matched, name, htv, hpl, hmp, hchk, ?_,
        hfresh, hdisj, hdn, hdt, hhn, hht, hid⟩
      rcases hname with ⟨hne, hna, hcc⟩ | ⟨heq, hna, hcc⟩
      · exact Or.inl ⟨hcn ▸ hne, hcn ▸ hna, hcc⟩
      · exact Or.inr ⟨hcn ▸ heq, hna, hcc⟩

theorem registerNamed_error {st : ServiceState} {ht : HandlerType}
    {matched : List ModelDesc} {config c' : Config} {st' : ServiceState}
    {e : StorageErr}
    (h : registerNamed st ht matched config = (c', st', .error e)) :
    st' = st ∧
    ((configName config = "" ∧
      c' = setA config "name"
        (CVal.s (deriveName (st.defsByName.map Prod.fst) ht.module))) ∨
     (configName config ≠ "" ∧ c' = config)) ∧
    ((∃ n, e = .configError (.dupName n)) ∨
     (∃ t, e = .configError (.dupModel t))) := by
  unfold registerNamed at h
  split at h
  · rename_i hblank
    obtain ⟨hc, hst, he⟩ := registerFinish_error h
    refine ⟨hst, Or.inl ⟨hblank, hc⟩, ?_⟩
    rcases he with he | ⟨t, -, -, he⟩
    · exact Or.inl ⟨_, he⟩
    · exact Or.inr ⟨_, he⟩
  · rename_i hblank
    obtain ⟨hc, hst, he⟩ := registerFinish_error h
    refine ⟨hst, Or.inr ⟨hblank, hc⟩, ?_⟩
    rcases he with he | ⟨t, -, -, he⟩
    · exact Or.inl ⟨_, he⟩
    · exact Or.inr ⟨_, he⟩

theorem registerMatched_error {modelTypes : List ModelDesc} {st : ServiceState}
    {ht : HandlerType} {config c' : Config} {st' : ServiceState} {e : StorageErr}
    (h : registerMatched modelTypes st ht config = (c', st', .error e)) :
    st' = st ∧
    ((∃ p, e = .configError (.noMatch p) ∧ c' = eraseA config "models") ∨
     (e = .configError .checkFailed ∧ c' = eraseA config "models") ∨
     registerNamed st ht ((matchPatterns modelTypes (configPatterns config)).toOption.getD [])
       (eraseA config "models") = (c', st', .error e)) := by
  unfold registerMatched at h
  split at h
  · rename_i p hmp
    simp only [Prod.mk.injEq] at h
    obtain ⟨hc, hst, he⟩ := h
    exact ⟨hst.symm, Or.inl ⟨p, by injection he.symm, hc.symm⟩⟩
  · rename_i matched hmp
    split at h
    · simp only [Prod.mk.injEq] at h
      obtain ⟨hc, hst, he⟩ := h
      exact ⟨hst.symm, Or.inr (Or.inl ⟨by injection he.symm, hc.symm⟩)⟩
    · obtain ⟨-, -, he⟩ := registerNamed_error h
      refine ⟨(registerNamed_error h).1, Or.inr (Or.inr ?_)⟩
      rw [hmp]
      exact h

theorem register_error_cases {pl : String → Option HandlerType} {mts : List ModelDesc}
    {st : ServiceState} {c c' : Config} {st' : ServiceState} {e : StorageErr}
    (h : registerStoreHandler pl mts st c = (c', st', .error e)) :
    st' = st ∧ (∃ re, e = .configError re) ∧
    (∀ p, e = .configError (.noMatch p) →
       lookupA c' "type" = none ∧ lookupA c' "models" = none) ∧
    (∀ n, e = .configError (.dupName n) →
       lookupA c' "type" = none ∧ lookupA c' "models" = none ∧
       (configName c = "" → ∃ nm, lookupA c' "name" = some (CVal.s nm))) ∧
    (∀ t, e = .configError (.dupModel t) →
       lookupA c' "type" = none ∧ lookupA c' "models" = none ∧
       (configName c = "" → ∃ nm, lookupA c' "name" = some (CVal.s nm))) := by
  have hcn : configName (eraseA (eraseA c "type") "models") = configName c := by
    rw [configName_eraseA (by decide), configName_eraseA (by decide)]
  have htydef : lookupA (eraseA (eraseA c "type") "models") "type" = none := by
    rw [lookupA_eraseA_ne _ _ _ (by decide)]
    exact lookupA_eraseA_self c "type"
  have hmodef : lookupA (eraseA (eraseA c "type") "models") "models" = none :=
    lookupA_eraseA_self _ "models"
  unfold registerStoreHandler at h
  split at h
  · simp only [Prod.mk.injEq] at h
    obtain ⟨hc, hst, he⟩ := h
    have he' : e = .configError .missingType := by injection he.symm
    subst he'
    exact ⟨hst.symm, ⟨_, rfl⟩, by simp, by simp, by simp⟩
  · simp only [Prod.mk.injEq] at h
    obtain ⟨hc, hst, he⟩ := h
    have he' : e = .configError (.badPlugin "") := by injection he.symm
    subst he'
    exact ⟨hst.symm, ⟨_, rfl⟩, by simp, by simp, by simp⟩
  · rename_i moduleName htv
    split at h
    · simp only [Prod.mk.injEq] at h
      obtain ⟨hc, hst, he⟩ := h
      have he' : e = .configError (.badPlugin moduleName) := by injection he.symm
      subst he'
      exact ⟨hst.symm, ⟨_, rfl⟩, by simp, by simp, by simp⟩
    · rename_i ht hpl
      obtain ⟨hst, hcase⟩ := registerMatched_error h
      refine ⟨hst, ?_⟩
      rcases hcase with ⟨p, he', hc⟩ | ⟨he', hc⟩ | hnamed
      · subst he'
        subst hc
        exact ⟨⟨_, rfl⟩, fun q _ => ⟨htydef, hmodef⟩, by simp, by simp⟩
      · subst he'
        subst hc
        exact ⟨⟨_, rfl⟩, by simp, by simp, by simp⟩
      · obtain ⟨-, hcfg, he⟩ := registerNamed_error hnamed
        have hkinds : ∃ re, e = StorageErr.configError re := by
          rcases he with ⟨n, he⟩ | ⟨t, he⟩
          · exact ⟨_, he⟩
          · exact ⟨_, he⟩
        refine ⟨hkinds, fun p hp => ?_, ?_, ?_⟩
        · rcases he with ⟨n, he⟩ | ⟨t, he⟩ <;> simp [he] at hp
        all_goals {
          intro x hx
          rcases hcfg with ⟨hblank, hc⟩ | ⟨hne, hc⟩
          · subst hc
            refine ⟨?_, ?_, fun _ => ⟨_, lookupA_setA_self _ _ _⟩⟩
            · rw [lookupA_setA_ne _ _ _ _ (by decide)]
              exact htydef
            · rw [lookupA_setA_ne _ _ _ _ (by decide)]
              exact hmodef
          · subst hc
            exact ⟨htydef, hmodef, fun hblank => absurd (hcn.trans hblank) hne⟩
        }


theorem register_mono (pl : String → Option HandlerType) (mts : List ModelDesc)
    (st : ServiceState) (c : Config) :
    ∃ tn tt,
      (registerStoreHandler pl mts st c).2.1.defsByName = st.defsByName ++ tn ∧
      (registerStoreHandler pl mts st c).2.1.defsByType = st.defsByType ++ tt := by
  rcases hres : (registerStoreHandler pl mts st c).2.2 with e | u
  · have eeq : registerStoreHandler pl mts st c =
        ((registerStoreHandler pl mts st c).1,
         (registerStoreHandler pl mts st c).2.1, .error e) := by
      rw [← hres]
    obtain ⟨hst, -, -, -, -⟩ := register_error_cases eeq
    exact ⟨[], [], by rw [hst, List.append_nil], by rw [hst, List.append_nil]⟩
  · cases u
    have eeq : registerStoreHandler pl mts st c =
        ((registerStoreHandler pl mts st c).1,
         (registerStoreHandler pl mts st c).2.1, .ok ()) := by
      rw [← hres]
    obtain ⟨mo, ht, ma, n, -, -, -, -, -, -, -, hdn, hdt, -, -, -⟩ :=
      register_ok_cases eeq
    exact ⟨_, _, hdn, hdt⟩

theorem registerAll_append (pl : String → Option HandlerType) (mts : List ModelDesc)
    (l₁ l₂ : List Config) : ∀ st : ServiceState,
    registerAll pl mts st (l₁ ++ l₂) =
      registerAll pl mts (registerAll pl mts st l₁) l₂ := by
  induction l₁ with
  | nil => intro st; rfl
  | cons c l ih =>
    intro st
    simp only [List.cons_append, registerAll]
    exact ih _

theorem registerAll_mono (pl : String → Option HandlerType) (mts : List ModelDesc)
    (cs : List Config) : ∀ st : ServiceState,
    ∃ tn tt,
      (registerAll pl mts st cs).defsByName = st.defsByName ++ tn ∧
      (registerAll pl mts st cs).defsByType = st.defsByType ++ tt := by
  induction cs with
  | nil =>
    intro st
    refine ⟨[], [], ?_, ?_⟩ <;> simp [registerAll]
  | cons c l ih =>
    intro st
    obtain ⟨tn₁, tt₁, hn₁, ht₁⟩ := register_mono pl mts st c
    obtain ⟨tn₂, tt₂, hn₂, ht₂⟩ := ih (registerStoreHandler pl mts st c).2.1
    refine ⟨tn₁ ++ tn₂, tt₁ ++ tt₂, ?_, ?_⟩
    · simp only [registerAll]
      rw [hn₂, hn₁, List.append_assoc]
    · simp only [registerAll]
      rw [ht₂, ht₁, List.append_assoc]

theorem registerAll_take_succ (pl : String → Option HandlerType) (mts : List ModelDesc)
    (st : ServiceState) (cs : List Config) (i : Nat) (hi : i < cs.length) :
    registerAll pl mts st (cs.take (i + 1)) =
      (registerStoreHandler pl mts (registerAll pl mts st (cs.take i))
        (cs.get ⟨i, hi⟩)).2.1 := by
  rw [List.take_succ, List.getElem?_eq_getElem hi, registerAll_append]
  rfl

theorem createHandler_spec (st : ServiceState) (defn : StoreDef) :
    createHandler st defn =
      (st.nextId,
       { st with
         nextId := st.nextId + 1,
         handlersByName :=
           setA st.handlersByName
             (match lookupA defn.config "name" with
              | some (CVal.s v) => v
              | _ => "") st.nextId,
         handlersByType :=
           defn.modelTypes.foldl (fun hs d => setA hs d st.nextId) st.handlersByType },
       [Event.create defn.htype.module st.nextId]) := rfl

theorem saveModel_eq_of_getHandler_error {st : ServiceState} {m : ModelInst}
    {e : StorageErr} (be : Backend) (hget : getHandler st m = .error e) :
    saveModel be st m = (st, [], .error e) := by
  unfold saveModel
  rw [hget]

theorem saveModel_eq_of_getHandler_ok {st : ServiceState} {m : ModelInst}
    {hh : Nat} {st2 : ServiceState} {ev : List Event} (be : Backend)
    (hget : getHandler st m = .ok (hh, st2, ev)) :
    saveModel be st m =
      (if m.valid = false then (st2, ev, .error .validationError)
       else
         match be.saveFn hh m with
         | .ok r => (st2, ev ++ [Event.save hh m], .ok r)
         | .error _ => (st2, ev ++ [Event.save hh m], .error .backendError)) := by
  unfold saveModel
  rw [hget]

theorem getModel_eq_of_getHandler_error {st : ServiceState} {m : ModelInst}
    {e : StorageErr} (be : Backend) (hget : getHandler st m = .error e) :
    getModel be st m = (st, [], .error e) := by
  unfold getModel
  rw [hget]

theorem getModel_eq_of_getHandler_ok {st : ServiceState} {m : ModelInst}
    {hh : Nat} {st2 : ServiceState} {ev : List Event} (be : Backend)
    (hget : getHandler st m = .ok (hh, st2, ev)) :
    getModel be st m =
      (match be.getFn hh m with
       | .error _ => (st2, ev ++ [Event.get hh m], .error .backendError)
       | .ok r =>
         if r.valid = false then (st2, ev ++ [Event.get hh m], .error .validationError)
         else (st2, ev ++ [Event.get hh m], .ok r)) := by
  unfold getModel
  rw [hget]

theorem deleteModel_eq_of_getHandler_error {st : ServiceState} {m : ModelInst}
    {e : StorageErr} (be : Backend) (hget : getHandler st m = .error e) :
    deleteModel be st m = (st, [], .error e) := by
  unfold deleteModel
  rw [hget]

theorem getHandlerByType_ok_shape {st : ServiceState} {t : ModelDesc}
    {h : Nat} {st' : ServiceState} {ev : List Event}
    (hres : getHandlerByType st t = .ok (h, st', ev)) :
    (ev = [] ∧ st' = st) ∨
    (∃ mo, ev = [Event.create mo st.nextId] ∧ h = st.nextId ∧
       st'.nextId = st.nextId + 1) := by
  unfold getHandlerByType at hres
  rcases h1 : lookupA st.handlersByType t with - | hh
  · rw [h1] at hres
    rcases h2 : lookupA st.defsByType t with - | defn
    · rw [h2] at hres
      simp at hres
    · rw [h2] at hres
      simp only [createHandler_spec, Except.ok.injEq, Prod.mk.injEq] at hres
      obtain ⟨e1, e2, e3⟩ := hres
      subst e1
      subst e2
      subst e3
      exact Or.inr ⟨defn.htype.module, rfl, rfl, rfl⟩
  · rw [h1] at hres
    simp only [Except.ok.injEq, Prod.mk.injEq] at hres
    obtain ⟨e1, e2, e3⟩ := hres
    exact Or.inl ⟨e3.symm, e2.symm⟩

theorem getHandler_ok_shape {st : ServiceState} {m : ModelInst}
    {h : Nat} {st' : ServiceState} {ev : List Event}
    (hres : getHandler st m = .ok (h, st', ev)) :
    (ev = [] ∧ st' = st) ∨
    (∃ mo, ev = [Event.create mo st.nextId] ∧ h = st.nextId ∧
       st'.nextId = st.nextId + 1) := by
  unfold getHandler at hres
  by_cases hcond : m.mtype = hostType ∧ strTrim m.source ≠ ""
  · rw [if_pos hcond] at hres
    rcases h1 : lookupA st.handlersByName (strTrim m.source) with - | hh
    · rw [h1] at hres
      rcases h2 : lookupA st.defsByName (strTrim m.source) with - | defn
      · rw [h2] at hres
        simp at hres
      · rw [h2] at hres
        simp only [createHandler_spec, Except.ok.injEq, Prod.mk.injEq] at hres
        obtain ⟨e1, e2, e3⟩ := hres
        subst e1
        subst e2
        subst e3
        exact Or.inr ⟨defn.htype.module, rfl, rfl, rfl⟩
    · rw [h1] at hres
      simp only [Except.ok.injEq, Prod.mk.injEq] at hres
      obtain ⟨e1, e2, e3⟩ := hres
      exact Or.inl ⟨e3.symm, e2.symm⟩
  · rw [if_neg hcond] at hres
    exact getHandlerByType_ok_shape hres

theorem getHandler_no_primitive_events {st : ServiceState} {m : ModelInst}
    {h : Nat} {st' : ServiceState} {ev : List Event}
    (hres : getHandler st m = .ok (h, st', ev)) :
    ∀ x ∈ ev, ∃ mo hh, x = Event.create mo hh := by
  rcases getHandler_ok_shape hres with ⟨hev, -⟩ | ⟨mo, hev, -, -⟩
  · subst hev
    intro x hx
    simp at hx
  · subst hev
    intro x hx
    rw [List.mem_singleton] at hx
    exact ⟨mo, st.nextId, hx⟩

theorem saveModel_ok_event {be : Backend} {st : ServiceState} {m r : ModelInst}
    {st₁ : ServiceState} {ev₁ : List Event}
    (h : saveModel be st m = (st₁, ev₁, .ok r)) :
    ∃ hh evh, ev₁ = evh ++ [Event.save hh m] := by
  rcases hget : getHandler st m with e | ⟨hh, st2, ev⟩
  · rw [saveModel_eq_of_getHandler_error be hget] at h
    simp at h
  · rw [saveModel_eq_of_getHandler_ok be hget] at h
    by_cases hv : m.valid = false
    · rw [if_pos hv] at h
      simp at h
    · rw [if_neg hv] at h
      rcases hfn : be.saveFn hh m with e0 | r0 <;> rw [hfn] at h
      · simp only [Prod.mk.injEq] at h
        exact absurd h.2.2 (by simp)
      · simp only [Prod.mk.injEq] at h
        exact ⟨hh, ev, h.2.1.symm⟩


theorem saveLoop_cons_error (be : Backend) (st : ServiceState) (m : ModelInst)
    (ms : List ModelInst) {sta : ServiceState} {eva : List Event} {e : StorageErr}
    (hsm : saveModel be st m = (sta, eva, .error e)) :
    saveLoop be st (m :: ms) = (sta, eva, .error e) := by
  simp only [saveLoop, hsm]

theorem saveLoop_cons_ok_error (be : Backend) (st : ServiceState) (m : ModelInst)
    (ms : List ModelInst) {sta stb : ServiceState} {eva evb : List Event}
    {saved : ModelInst} {e : StorageErr}
    (hsm : saveModel be st m = (sta, eva, .ok saved))
    (hsl : saveLoop be sta ms = (stb, evb, .error e)) :
    saveLoop be st (m :: ms) = (stb, eva ++ evb, .error e) := by
  simp only [saveLoop, hsm]
  change (match saveLoop be sta ms with
    | (st₂, ev₂, Except.error e) => (st₂, eva ++ ev₂, Except.error e)
    | (st₂, ev₂, Except.ok l) => (st₂, eva ++ ev₂, Except.ok (saved :: l))) =
    (stb, eva ++ evb, Except.error e)
  rw [hsl]

theorem saveLoop_cons_ok_ok (be : Backend) (st : ServiceState) (m : ModelInst)
    (ms : List ModelInst) {sta stb : ServiceState} {eva evb : List Event}
    {saved : ModelInst} {l : List ModelInst}
    (hsm : saveModel be st m = (sta, eva, .ok saved))
    (hsl : saveLoop be sta ms = (stb, evb, .ok l)) :
    saveLoop be st (m :: ms) = (stb, eva ++ evb, .ok (saved :: l)) := by
  simp only [saveLoop, hsm]
  change (match saveLoop be sta ms with
    | (st₂, ev₂, Except.error e) => (st₂, eva ++ ev₂, Except.error e)
    | (st₂, ev₂, Except.ok l) => (st₂, eva ++ ev₂, Except.ok (saved :: l))) =
    (stb, eva ++ evb, Except.ok (saved :: l))
  rw [hsl]

theorem saveLoop_append {be : Backend} {st : ServiceState} {l₁ : List ModelInst}
    (l₂ : List ModelInst) {st₁ : ServiceState} {ev₁ : List Event} {vs : List ModelInst}
    (h : saveLoop be st l₁ = (st₁, ev₁, .ok vs)) :
    saveLoop be st (l₁ ++ l₂) =
      ((saveLoop be st₁ l₂).1, ev₁ ++ (saveLoop be st₁ l₂).2.1,
       match (saveLoop be st₁ l₂).2.2 with
       | .error e => .error e
       | .ok l => .ok (vs ++ l)) := by
  induction l₁ generalizing st ev₁ vs with
  | nil =>
    simp only [saveLoop, Prod.mk.injEq] at h
    obtain ⟨e1, e2, e3⟩ := h
    have hvs : vs = [] := by injection e3 with hx; exact hx.symm
    subst hvs
    rw [List.nil_append, ← e1, ← e2]
    rcases hres : saveLoop be st l₂ with ⟨a, b, r⟩
    rcases r with e | l <;> simp
  | cons m ms ih =>
    rcases hsm : saveModel be st m with ⟨sta, eva, ra⟩
    rcases ra with e | saved
    · rw [saveLoop_cons_error be st m ms hsm] at h
      simp at h
    · rcases hsl : saveLoop be sta ms with ⟨stb, evb, rb⟩
      rcases rb with e | l
      · rw [saveLoop_cons_ok_error be st m ms hsm hsl] at h
        simp at h
      · rw [saveLoop_cons_ok_ok be st m ms hsm hsl] at h
        simp only [Prod.mk.injEq] at h
        obtain ⟨e1, e2, e3⟩ := h
        have hvs : vs = saved :: l := by injection e3 with hx; exact hx.symm
        subst hvs
        subst e1
        rw [← e2, List.cons_append]
        rcases hres : saveLoop be stb l₂ with ⟨a, b, r⟩
        have hih := ih hsl
        rw [hres] at hih
        rcases r with e | l2
        · dsimp only at hih
          rw [saveLoop_cons_ok_error be st m (ms ++ l₂) hsm hih]
          simp [List.append_assoc]
        · dsimp only at hih
          rw [saveLoop_cons_ok_ok be st m (ms ++ l₂) hsm hih]
          simp [List.append_assoc]

theorem saveLoop_ok_saves {be : Backend} {st : ServiceState} {l : List ModelInst}
    {st' : ServiceState} {ev : List Event} {vs : List ModelInst}
    (h : saveLoop be st l = (st', ev, .ok vs)) :
    ∀ m ∈ l, ∃ hh, Event.save hh m ∈ ev := by
  induction l generalizing st ev vs with
  | nil => intro m hm; simp at hm
  | cons m0 ms ih =>
    intro m hm
    rcases hsm : saveModel be st m0 with ⟨sta, eva, ra⟩
    rcases ra with e | saved
    · rw [saveLoop_cons_error be st m0 ms hsm] at h
      simp at h
    · rcases hsl : saveLoop be sta ms with ⟨stb, evb, rb⟩
      rcases rb with e | l2
      · rw [saveLoop_cons_ok_error be st m0 ms hsm hsl] at h
        simp at h
      · rw [saveLoop_cons_ok_ok be st m0 ms hsm hsl] at h
        simp only [Prod.mk.injEq] at h
        obtain ⟨e1, e2, e3⟩ := h
        subst e1
        rcases List.mem_cons.mp hm with hm0 | hms
        · subst hm0
          obtain ⟨hh, evh, hev⟩ := saveModel_ok_event hsm
          refine ⟨hh, ?_⟩
          rw [← e2, hev]
          simp
        · obtain ⟨hh, hmem⟩ := ih hsl m hms
          refine ⟨hh, ?_⟩
          rw [← e2]
          exact List.mem_append_right _ hmem

theorem onSave_many_buildfail {be : Backend} {mts : List ModelDesc}
    {st : ServiceState} {tn : String} {rs : List RawRep} {e : StorageErr}
    (hb : buildAll mts tn rs = .error e) :
    onSave be mts st tn (.many rs) = (st, [], .error e) := by
  simp only [onSave, hb]

theorem onGet_many_buildfail {be : Backend} {mts : List ModelDesc}
    {st : ServiceState} {tn : String} {rs : List RawRep} {e : StorageErr}
    (hb : buildAll mts tn rs = .error e) :
    onGet be mts st tn (.many rs) = (st, [], .error e) := by
  simp only [onGet, hb]

theorem onDelete_many_buildfail {be : Backend} {mts : List ModelDesc}
    {st : ServiceState} {tn : String} {rs : List RawRep} {e : StorageErr}
    (hb : buildAll mts tn rs = .error e) :
    onDelete be mts st tn (.many rs) = (st, [], .error e) := by
  simp only [onDelete, hb]

theorem onSave_many_loop_ok {be : Backend} {mts : List ModelDesc}
    {st st' : ServiceState} {tn : String} {rs : List RawRep}
    {ms vs : List ModelInst} {ev : List Event}
    (hb : buildAll mts tn rs = .ok ms) (hsl : saveLoop be st ms = (st', ev, .ok vs)) :
    onSave be mts st tn (.many rs) = (st', ev, .ok (.many vs)) := by
  simp only [onSave, hb]
  change (match saveLoop be st ms with
    | (st', ev, Except.error e) => (st', ev, Except.error e)
    | (st', ev, Except.ok l) => (st', ev, Except.ok (OpResult.many l))) =
    (st', ev, Except.ok (OpResult.many vs))
  rw [hsl]

theorem onSave_many_loop_error {be : Backend} {mts : List ModelDesc}
    {st st' : ServiceState} {tn : String} {rs : List RawRep}
    {ms : List ModelInst} {ev : List Event} {e : StorageErr}
    (hb : buildAll mts tn rs = .ok ms) (hsl : saveLoop be st ms = (st', ev, .error e)) :
    onSave be mts st tn (.many rs) = (st', ev, .error e) := by
  simp only [onSave, hb]
  change (match saveLoop be st ms with
    | (st', ev, Except.error e) => (st', ev, Except.error e)
    | (st', ev, Except.ok l) => (st', ev, Except.ok (OpResult.many l))) =
    (st', ev, Except.error e)
  rw [hsl]

/-- C1: the spec and the repository's own tests require that wildcard
model patterns never match a secret-bearing model type, but
_register_store_handler filters patterns against every model type in
the registry with no secret exclusion: evaluated at a registry holding
the secret HostCreds type, a registration with models = [star] succeeds
and silently claims HostCreds for the general-purpose handler. -/
theorem wildcard_registration_claims_secret_type :
    ((registerStoreHandler
        (fun s => if s = "etcd" then some ⟨"commissaire.storage.etcd", true⟩ else none)
        [⟨"Host", false⟩, ⟨"Cluster", false⟩, ⟨"HostCreds", true⟩]
        ServiceState.empty
        [("type", CVal.s "etcd"), ("models", CVal.ls ["*"])]).2.2 = .ok ()) ∧
    (((registerStoreHandler
        (fun s => if s = "etcd" then some ⟨"commissaire.storage.etcd", true⟩ else none)
        [⟨"Host", false⟩, ⟨"Cluster", false⟩, ⟨"HostCreds", true⟩]
        ServiceState.empty
        [("type", CVal.s "etcd"), ("models", CVal.ls ["*"])]).2.1.defsByType.map
          Prod.fst).contains ⟨"HostCreds", true⟩ = true) ∧
    (⟨"HostCreds", true⟩ : ModelDesc).isSecret = true := by
  decide

/-- C2: for list-form save, get and delete, all models are built before
any handler primitive runs: if any single element of the batch fails to
parse or to construct, the whole call returns the error with the state
unchanged and an empty handler-event trace, so zero handler save, get
or delete calls are made. -/
theorem batch_build_failfast (be : Backend) (mts : List ModelDesc)
    (st : ServiceState) (tn : String) (rs : List RawRep)
    (hbad : ∃ r ∈ rs, ∃ e, buildModel mts tn r = .error e) :
    (∃ e, onSave be mts st tn (.many rs) = (st, [], .error e)) ∧
    (∃ e, onGet be mts st tn (.many rs) = (st, [], .error e)) ∧
    (∃ e, onDelete be mts st tn (.many rs) = (st, [], .error e)) := by
  obtain ⟨r, hr, e, hbm⟩ := hbad
  obtain ⟨e', hall⟩ := buildAll_error_of_bad hr hbm
  exact ⟨⟨e', onSave_many_buildfail hall⟩,
         ⟨e', onGet_many_buildfail hall⟩,
         ⟨e', onDelete_many_buildfail hall⟩⟩

/-- Witness for C2 at a two-element batch whose second element fails to
construct. -/
theorem batch_build_failfast_witness :
    (∃ r ∈ [RawRep.good { mtype := ⟨"Host", false⟩ }, RawRep.bad],
       ∃ e, buildModel [⟨"Host", false⟩] "Host" r = .error e) ∧
    (∃ e, onSave trivialBackend [⟨"Host", false⟩] ServiceState.empty "Host"
        (.many [RawRep.good { mtype := ⟨"Host", false⟩ }, RawRep.bad]) =
        (ServiceState.empty, [], .error e)) ∧
    (∃ e, onGet trivialBackend [⟨"Host", false⟩] ServiceState.empty "Host"
        (.many [RawRep.good { mtype := ⟨"Host", false⟩ }, RawRep.bad]) =
        (ServiceState.empty, [], .error e)) ∧
    (∃ e, onDelete trivialBackend [⟨"Host", false⟩] ServiceState.empty "Host"
        (.many [RawRep.good { mtype := ⟨"Host", false⟩ }, RawRep.bad]) =
        (ServiceState.empty, [], .error e)) :=
  ⟨⟨RawRep.bad, by decide, .typeError, rfl⟩,
   batch_build_failfast trivialBackend [⟨"Host", false⟩] ServiceState.empty "Host"
     [RawRep.good { mtype := ⟨"Host", false⟩ }, RawRep.bad]
     ⟨RawRep.bad, by decide, .typeError, rfl⟩⟩

/-- C4 counterexample: the claim says an invalid record of a model type
with no registered handler yields ValidationError with no handler
lookup, but _save_model resolves the handler before validating, so the
call raises KeyError instead. -/
theorem save_invalid_unregistered_raises_keyerror :
    saveModel trivialBackend ServiceState.empty
        { mtype := ⟨"Cluster", false⟩, valid := false } =
      (ServiceState.empty, [], .error (.keyError "Cluster")) ∧
    (Except.error (StorageErr.keyError "Cluster") :
        Except StorageErr ModelInst) ≠ .error .validationError := by
  decide

/-- C4 amended: in _save_model the handler is resolved and, if needed,
instantiated first; only then is the model validated, and an invalid
model raises ValidationError before the save primitive runs (the event
trace holds only handler constructions, never a save); when the model
type has no registered handler the call instead propagates KeyError
from handler resolution. -/
theorem save_validates_after_handler_resolution (be : Backend)
    (st : ServiceState) (m : ModelInst) :
    (∀ h st' ev, getHandler st m = .ok (h, st', ev) → m.valid = false →
       saveModel be st m = (st', ev, .error .validationError) ∧
       ∀ x ∈ ev, ∃ mo hh, x = Event.create mo hh) ∧
    (∀ e, getHandler st m = .error e → saveModel be st m = (st, [], .error e)) := by
  constructor
  · intro h st' ev hget hv
    refine ⟨?_, getHandler_no_primitive_events hget⟩
    rw [saveModel_eq_of_getHandler_ok be hget, if_pos hv]
  · intro e hget
    exact saveModel_eq_of_getHandler_error be hget

/-- Witness for the amended C4: an invalid Cluster record whose type
has a registered definition gets its handler instantiated, then save
raises ValidationError with no save primitive event. -/
theorem save_validates_after_handler_resolution_witness :
    getHandler
        { defsByName := [("h", ⟨⟨"mod", true⟩, [("name", CVal.s "h")], [⟨"Cluster", false⟩]⟩)],
          defsByType := [(⟨"Cluster", false⟩, ⟨⟨"mod", true⟩, [("name", CVal.s "h")], [⟨"Cluster", false⟩]⟩)],
          handlersByName := [], handlersByType := [], nextId := 0 }
        { mtype := ⟨"Cluster", false⟩, valid := false } =
      .ok (0,
        { defsByName := [("h", ⟨⟨"mod", true⟩, [("name", CVal.s "h")], [⟨"Cluster", false⟩]⟩)],
          defsByType := [(⟨"Cluster", false⟩, ⟨⟨"mod", true⟩, [("name", CVal.s "h")], [⟨"Cluster", false⟩]⟩)],
          handlersByName := [("h", 0)], handlersByType := [(⟨"Cluster", false⟩, 0)], nextId := 1 },
        [Event.create "mod" 0]) ∧
    saveModel trivialBackend
        { defsByName := [("h", ⟨⟨"mod", true⟩, [("name", CVal.s "h")], [⟨"Cluster", false⟩]⟩)],
          defsByType := [(⟨"Cluster", false⟩, ⟨⟨"mod", true⟩, [("name", CVal.s "h")], [⟨"Cluster", false⟩]⟩)],
          handlersByName := [], handlersByType := [], nextId := 0 }
        { mtype := ⟨"Cluster", false⟩, valid := false } =
      ({ defsByName := [("h", ⟨⟨"mod", true⟩, [("name", CVal.s "h")], [⟨"Cluster", false⟩]⟩)],
         defsByType := [(⟨"Cluster", false⟩, ⟨⟨"mod", true⟩, [("name", CVal.s "h")], [⟨"Cluster", false⟩]⟩)],
         handlersByName := [("h", 0)], handlersByType := [(⟨"Cluster", false⟩, 0)], nextId := 1 },
       [Event.create "mod" 0], .error .validationError) :=
  ⟨by decide,
   ((save_validates_after_handler_resolution trivialBackend
       { defsByName := [("h", ⟨⟨"mod", true⟩, [("name", CVal.s "h")], [⟨"Cluster", false⟩]⟩)],
         defsByType := [(⟨"Cluster", false⟩, ⟨⟨"mod", true⟩, [("name", CVal.s "h")], [⟨"Cluster", false⟩]⟩)],
         handlersByName := [], handlersByType := [], nextId := 0 }
       { mtype := ⟨"Cluster", false⟩, valid := false }).1 0 _ _ (by decide) rfl).1⟩

/-- C7: the record returned by a handler's get primitive is validated
before a representation is returned: a successful get always returns a
valid record, and a handler returning an invalid record makes the get
operation end in ValidationError right after the get primitive event. -/
theorem get_output_validation (be : Backend) (st : ServiceState) (m : ModelInst) :
    (∀ st' ev r, getModel be st m = (st', ev, .ok r) → r.valid = true) ∧
    (∀ h st' ev r, getHandler st m = .ok (h, st', ev) → be.getFn h m = .ok r →
       r.valid = false →
       getModel be st m = (st', ev ++ [Event.get h m], .error .validationError)) := by
  constructor
  · intro st' ev r hres
    rcases hget : getHandler st m with e | ⟨hh, st2, ev2⟩
    · rw [getModel_eq_of_getHandler_error be hget] at hres
      simp at hres
    · rw [getModel_eq_of_getHandler_ok be hget] at hres
      rcases hfn : be.getFn hh m with e0 | r0 <;> rw [hfn] at hres <;>
        dsimp only at hres
      · simp only [Prod.mk.injEq] at hres
        exact absurd hres.2.2 (by simp)
      · by_cases hv : r0.valid = false
        · rw [if_pos hv] at hres
          simp only [Prod.mk.injEq] at hres
          exact absurd hres.2.2 (by simp)
        · rw [if_neg hv] at hres
          simp only [Prod.mk.injEq] at hres
          obtain ⟨-, -, hr⟩ := hres
          have : r = r0 := by injection hr.symm
          subst this
          rw [Bool.not_eq_false] at hv
          exact hv
  · intro h st' ev r hget hfn hv
    rw [getModel_eq_of_getHandler_ok be hget, hfn]
    dsimp only
    rw [if_pos hv]

/-- Witness for C7: a backend whose get returns the record with its
validity flag cleared makes the get operation raise ValidationError. -/
theorem get_output_validation_witness :
    getModel
        { saveFn := fun _ m => .ok m,
          getFn := fun _ m => .ok { m with valid := false },
          deleteFn := fun _ _ => .ok () }
        { defsByName := [], defsByType := [], handlersByName := [],
          handlersByType := [(⟨"Host", false⟩, 4)], nextId := 5 }
        { mtype := ⟨"Host", false⟩ } =
      ({ defsByName := [], defsByType := [], handlersByName := [],
         handlersByType := [(⟨"Host", false⟩, 4)], nextId := 5 },
       [Event.get 4 { mtype := ⟨"Host", false⟩ }], .error .validationError) :=
  (get_output_validation
      { saveFn := fun _ m => .ok m,
        getFn := fun _ m => .ok { m with valid := false },
        deleteFn := fun _ _ => .ok () }
      { defsByName := [], defsByType := [], handlersByName := [],
        handlersByType := [(⟨"Host", false⟩, 4)], nextId := 5 }
      { mtype := ⟨"Host", false⟩ }).2 4 _ [] _ (by decide) rfl rfl

/-- C3: Host routing override in _get_handler: a Host whose trimmed
source names a registered handler is routed to that handler (cached
instance, or instantiated from the definition of that name), even when
a different default handler owns the Host type; a blank source falls
back to the default handler registered for the Host type; a source
naming no registered handler raises KeyError with no fallback. -/
theorem host_source_routing (st : ServiceState) (m : ModelInst)
    (hhost : m.mtype = hostType) :
    (∀ h, strTrim m.source ≠ "" →
       lookupA st.handlersByName (strTrim m.source) = some h →
       getHandler st m = .ok (h, st, [])) ∧
    (∀ d, strTrim m.source ≠ "" →
       lookupA st.handlersByName (strTrim m.source) = none →
       lookupA st.defsByName (strTrim m.source) = some d →
       getHandler st m = .ok (createHandler st d)) ∧
    (strTrim m.source ≠ "" →
       lookupA st.handlersByName (strTrim m.source) = none →
       lookupA st.defsByName (strTrim m.source) = none →
       getHandler st m = .error (.keyError (strTrim m.source))) ∧
    (strTrim m.source = "" →
       (∀ h, lookupA st.handlersByType hostType = some h →
          getHandler st m = .ok (h, st, [])) ∧
       (∀ d, lookupA st.handlersByType hostType = none →
          lookupA st.defsByType hostType = some d →
          getHandler st m = .ok (createHandler st d))) := by
  refine ⟨?_, ?_, ?_, ?_⟩
  · intro h hne hcache
    unfold getHandler
    rw [if_pos ⟨hhost, hne⟩, hcache]
  · intro d hne hcache hdef
    unfold getHandler
    rw [if_pos ⟨hhost, hne⟩, hcache, hdef]
  · intro hne hcache hdef
    unfold getHandler
    rw [if_pos ⟨hhost, hne⟩, hcache, hdef]
  · intro hsrc
    have hcond : ¬(m.mtype = hostType ∧ strTrim m.source ≠ "") := by
      rintro ⟨-, hne⟩
      exact hne hsrc
    constructor
    · intro h hcache
      unfold getHandler
      rw [if_neg hcond, hhost]
      unfold getHandlerByType
      rw [hcache]
    · intro d hcache hdef
      unfold getHandler
      rw [if_neg hcond, hhost]
      unfold getHandlerByType
      rw [hcache, hdef]

/-- Witness for C3: a registry whose default Host handler is instance 3
while the handler named alt is instance 7: a Host with source alt is
routed to 7, a Host with a blank source to 3, and a Host with an
unknown source raises KeyError. -/
theorem host_source_routing_witness :
    getHandler
        { defsByName := [], defsByType := [], handlersByName := [("alt", 7)],
          handlersByType := [(⟨"Host", false⟩, 3)], nextId := 8 }
        { mtype := ⟨"Host", false⟩, source := " alt " } =
      .ok (7,
        { defsByName := [], defsByType := [], handlersByName := [("alt", 7)],
          handlersByType := [(⟨"Host", false⟩, 3)], nextId := 8 }, []) ∧
    getHandler
        { defsByName := [], defsByType := [], handlersByName := [("alt", 7)],
          handlersByType := [(⟨"Host", false⟩, 3)], nextId := 8 }
        { mtype := ⟨"Host", false⟩, source := "" } =
      .ok (3,
        { defsByName := [], defsByType := [], handlersByName := [("alt", 7)],
          handlersByType := [(⟨"Host", false⟩, 3)], nextId := 8 }, []) ∧
    getHandler
        { defsByName := [], defsByType := [], handlersByName := [("alt", 7)],
          handlersByType := [(⟨"Host", false⟩, 3)], nextId := 8 }
        { mtype := ⟨"Host", false⟩, source := "bogus" } =
      .error (.keyError "bogus") :=
  ⟨(host_source_routing
      { defsByName := [], defsByType := [], handlersByName := [("alt", 7)],
        handlersByType := [(⟨"Host", false⟩, 3)], nextId := 8 }
      { mtype := ⟨"Host", false⟩, source := " alt " } rfl).1 7 (by decide) (by decide),
   ((host_source_routing
      { defsByName := [], defsByType := [], handlersByName := [("alt", 7)],
        handlersByType := [(⟨"Host", false⟩, 3)], nextId := 8 }
      { mtype := ⟨"Host", false⟩, source := "" } rfl).2.2.2 (by decide)).1 3 (by decide),
   (host_source_routing
      { defsByName := [], defsByType := [], handlersByName := [("alt", 7)],
        handlersByType := [(⟨"Host", false⟩, 3)], nextId := 8 }
      { mtype := ⟨"Host", false⟩, source := "bogus" } rfl).2.2.1 (by decide) (by decide) (by decide)⟩

/-- C5: across any sequence of registration calls on one registry, any
two successful calls append definitions with distinct resolved names
and disjoint owned model-type sets; a registration whose explicit name
is already a key of the by-name map, or whose matched model types meet
any key of the by-type map, fails with a ConfigurationError; and every
failing registration is a ConfigurationError that leaves the registry
state exactly as it was before the failing call. -/
theorem registration_uniqueness (pl : String → Option HandlerType)
    (mts : List ModelDesc) (st₀ : ServiceState) (cs : List Config)
    (i j : Nat) (hij : i < j) (hj : j < cs.length)
    (h₁ : (registerStoreHandler pl mts (registerAll pl mts st₀ (cs.take i))
            (cs.get ⟨i, Nat.lt_trans hij hj⟩)).2.2 = .ok ())
    (h₂ : (registerStoreHandler pl mts (registerAll pl mts st₀ (cs.take j))
            (cs.get ⟨j, hj⟩)).2.2 = .ok ()) :
    (∃ n₁ d₁ n₂ d₂,
       (registerAll pl mts st₀ (cs.take (i + 1))).defsByName =
         (registerAll pl mts st₀ (cs.take i)).defsByName ++ [(n₁, d₁)] ∧
       (registerAll pl mts st₀ (cs.take (j + 1))).defsByName =
         (registerAll pl mts st₀ (cs.take j)).defsByName ++ [(n₂, d₂)] ∧
       n₁ ≠ n₂ ∧
       ∀ t ∈ d₁.modelTypes, t ∉ d₂.modelTypes) ∧
    (∀ st c, configName c ≠ "" →
       configName c ∈ st.defsByName.map Prod.fst →
       ∃ re, (registerStoreHandler pl mts st c).2.2 = .error (.configError re) ∧
         (registerStoreHandler pl mts st c).2.1 = st) ∧
    (∀ st c matched t,
       matchPatterns mts (configPatterns (eraseA c "type")) = .ok matched →
       t ∈ matched → t ∈ st.defsByType.map Prod.fst →
       ∃ re, (registerStoreHandler pl mts st c).2.2 = .error (.configError re) ∧
         (registerStoreHandler pl mts st c).2.1 = st) ∧
    (∀ st c e, (registerStoreHandler pl mts st c).2.2 = .error e →
       (registerStoreHandler pl mts st c).2.1 = st ∧
       ∃ re, e = .configError re) := by
  have e₁ : registerStoreHandler pl mts (registerAll pl mts st₀ (cs.take i))
        (cs.get ⟨i, Nat.lt_trans hij hj⟩) =
      ((registerStoreHandler pl mts (registerAll pl mts st₀ (cs.take i))
          (cs.get ⟨i, Nat.lt_trans hij hj⟩)).1,
       (registerStoreHandler pl mts (registerAll pl mts st₀ (cs.take i))
          (cs.get ⟨i, Nat.lt_trans hij hj⟩)).2.1, .ok ()) := by
    rw [← h₁]
  have e₂ : registerStoreHandler pl mts (registerAll pl mts st₀ (cs.take j))
        (cs.get ⟨j, hj⟩) =
      ((registerStoreHandler pl mts (registerAll pl mts st₀ (cs.take j))
          (cs.get ⟨j, hj⟩)).1,
       (registerStoreHandler pl mts (registerAll pl mts st₀ (cs.take j))
          (cs.get ⟨j, hj⟩)).2.1, .ok ()) := by
    rw [← h₂]
  obtain ⟨mo₁, ht₁, ma₁, n₁, -, -, -, -, -, -, -, hdn₁, hdt₁, -, -, -⟩ :=
    register_ok_cases e₁
  obtain ⟨mo₂, ht₂, ma₂, n₂, -, -, -, -, -, hfresh₂, hdisj₂, hdn₂, -, -, -, -⟩ :=
    register_ok_cases e₂
  have hstep₁ := registerAll_take_succ pl mts st₀ cs i (Nat.lt_trans hij hj)
  have hstep₂ := registerAll_take_succ pl mts st₀ cs j hj
  have hsplit : cs.take j = cs.take (i + 1) ++ (cs.take j).drop (i + 1) := by
    conv_lhs => rw [← List.take_append_drop (i + 1) (cs.take j)]
    rw [List.take_take, Nat.min_eq_left (by omega)]
  have hjeq : registerAll pl mts st₀ (cs.take j) =
      registerAll pl mts (registerAll pl mts st₀ (cs.take (i + 1)))
        ((cs.take j).drop (i + 1)) := by
    conv_lhs => rw [hsplit]
    rw [registerAll_append]
  obtain ⟨tn, tt, hmn, hmt⟩ := registerAll_mono pl mts ((cs.take j).drop (i + 1))
    (registerAll pl mts st₀ (cs.take (i + 1)))
  rw [← hstep₁] at hdn₁ hdt₁
  rw [← hstep₂] at hdn₂
  refine ⟨⟨n₁, _, n₂, _, hdn₁, hdn₂, ?_, ?_⟩, ?_, ?_, ?_⟩
  · intro heq
    apply hfresh₂
    rw [← heq, hjeq, hmn, hdn₁]
    simp only [List.map_append]
    exact List.mem_append_left _ (List.mem_append_right _ (by simp))
  · intro t ht hmem
    have ht' : t ∈ ma₁ := ht
    have hmem' : t ∈ ma₂ := hmem
    refine hdisj₂ t hmem' ?_
    rw [hjeq, hmt, hdt₁]
    simp only [List.map_append, List.map_map]
    refine List.mem_append_left _ (List.mem_append_right _ ?_)
    simpa using ht'
  · intro st c hne hmem
    rcases hres : (registerStoreHandler pl mts st c).2.2 with e | u
    · have eeq : registerStoreHandler pl mts st c =
          ((registerStoreHandler pl mts st c).1,
           (registerStoreHandler pl mts st c).2.1, .error e) := by
        rw [← hres]
      obtain ⟨hst, ⟨re, hre⟩, -, -, -⟩ := register_error_cases eeq
      subst hre
      exact ⟨re, rfl, hst⟩
    · exfalso
      cases u
      have eeq : registerStoreHandler pl mts st c =
          ((registerStoreHandler pl mts st c).1,
           (registerStoreHandler pl mts st c).2.1, .ok ()) := by
        rw [← hres]
      obtain ⟨mo, ht, ma, n, -, -, -, -, hname, hfresh, -, -, -, -, -, -⟩ :=
        register_ok_cases eeq
      rcases hname with ⟨-, hna, -⟩ | ⟨hblank, -, -⟩
      · exact hfresh (by rw [hna]; exact hmem)
      · exact hne hblank
  · intro st c matched t hmp hmem hkey
    rcases hres : (registerStoreHandler pl mts st c).2.2 with e | u
    · have eeq : registerStoreHandler pl mts st c =
          ((registerStoreHandler pl mts st c).1,
           (registerStoreHandler pl mts st c).2.1, .error e) := by
        rw [← hres]
      obtain ⟨hst, ⟨re, hre⟩, -, -, -⟩ := register_error_cases eeq
      subst hre
      exact ⟨re, rfl, hst⟩
    · exfalso
      cases u
      have eeq : registerStoreHandler pl mts st c =
          ((registerStoreHandler pl mts st c).1,
           (registerStoreHandler pl mts st c).2.1, .ok ()) := by
        rw [← hres]
      obtain ⟨mo, ht, ma, n, -, -, hmp', -, -, -, hdisj, -, -, -, -, -⟩ :=
        register_ok_cases eeq
      rw [hmp] at hmp'
      injection hmp' with hma
      subst hma
      exact hdisj t hmem hkey
  · intro st c e he
    have eeq : registerStoreHandler pl mts st c =
        ((registerStoreHandler pl mts st c).1,
         (registerStoreHandler pl mts st c).2.1, .error e) := by
      rw [← he]
    obtain ⟨hst, hkind, -, -, -⟩ := register_error_cases eeq
    exact ⟨hst, hkind⟩

/-- Witness for C5: in the two-call sequence registering handler a for
Host and then handler b for Cluster on a fresh registry, calls 0 and 1
both succeed, so the theorem applies at i = 0, j = 1. -/
theorem registration_uniqueness_witness :
    (0 : Nat) < 1 ∧
    1 < seqConfigs.length ∧
    ((registerStoreHandler seqPlugins seqTypes ServiceState.empty
        [("type", CVal.s "t"), ("name", CVal.s "a"), ("models", CVal.ls ["Host"])]).2.2 =
      .ok ()) ∧
    ((registerStoreHandler seqPlugins seqTypes
        (registerAll seqPlugins seqTypes ServiceState.empty (seqConfigs.take 1))
        [("type", CVal.s "t"), ("name", CVal.s "b"), ("models", CVal.ls ["Cluster"])]).2.2 =
      .ok ()) ∧
    ((∃ n₁ d₁ n₂ d₂,
       (registerAll seqPlugins seqTypes ServiceState.empty (seqConfigs.take (0 + 1))).defsByName =
         (registerAll seqPlugins seqTypes ServiceState.empty (seqConfigs.take 0)).defsByName ++
           [(n₁, d₁)] ∧
       (registerAll seqPlugins seqTypes ServiceState.empty (seqConfigs.take (1 + 1))).defsByName =
         (registerAll seqPlugins seqTypes ServiceState.empty (seqConfigs.take 1)).defsByName ++
           [(n₂, d₂)] ∧
       n₁ ≠ n₂ ∧
       ∀ t ∈ d₁.modelTypes, t ∉ d₂.modelTypes) ∧
     (∀ st c, configName c ≠ "" →
        configName c ∈ st.defsByName.map Prod.fst →
        ∃ re, (registerStoreHandler seqPlugins seqTypes st c).2.2 = .error (.configError re) ∧
          (registerStoreHandler seqPlugins seqTypes st c).2.1 = st) ∧
     (∀ st c matched t,
        matchPatterns seqTypes (configPatterns (eraseA c "type")) = .ok matched →
        t ∈ matched → t ∈ st.defsByType.map Prod.fst →
        ∃ re, (registerStoreHandler seqPlugins seqTypes st c).2.2 = .error (.configError re) ∧
          (registerStoreHandler seqPlugins seqTypes st c).2.1 = st) ∧
     (∀ st c e, (registerStoreHandler seqPlugins seqTypes st c).2.2 = .error e →
        (registerStoreHandler seqPlugins seqTypes st c).2.1 = st ∧
        ∃ re, e = .configError re)) :=
  ⟨by decide, by decide, by decide, by decide,
   registration_uniqueness seqPlugins seqTypes ServiceState.empty seqConfigs 0 1
     (by decide) (by decide) (by decide) (by decide)⟩

/-- C8: name resolution during registration: a non-blank explicit name
is used as-is after trimming; otherwise the name is derived from the
handler type's module identity, trying the bare module name and then
suffixes -1, -2 and so on in increasing order, the first candidate not
colliding with an already-registered name is chosen, and the resolved
name is written back into the config's name key. -/
theorem register_name_resolution (pl : String → Option HandlerType)
    (mts : List ModelDesc) (st : ServiceState) (c : Config)
    (h : (registerStoreHandler pl mts st c).2.2 = .ok ()) :
    ∃ n d moduleName ht,
      lookupA c "type" = some (CVal.s moduleName) ∧
      pl moduleName = some ht ∧
      d.htype = ht ∧
      (registerStoreHandler pl mts st c).2.1.defsByName =
        st.defsByName ++ [(n, d)] ∧
      (configName c ≠ "" → n = configName c) ∧
      (configName c = "" →
        lookupA (registerStoreHandler pl mts st c).1 "name" = some (CVal.s n) ∧
        ∃ K, n = nameCandidate ht.module K ∧
          (∀ j, j < K → nameCandidate ht.module j ∈ st.defsByName.map Prod.fst) ∧
          n ∉ st.defsByName.map Prod.fst) := by
  have e₁ : registerStoreHandler pl mts st c =
      ((registerStoreHandler pl mts st c).1,
       (registerStoreHandler pl mts st c).2.1, .ok ()) := by
    rw [← h]
  obtain ⟨mo, ht, ma, n, htv, hpl, -, -, hname, hfresh, -, hdn, -, -, -, -⟩ :=
    register_ok_cases e₁
  refine ⟨n, _, mo, ht, htv, hpl, rfl, hdn, ?_, ?_⟩
  · intro hne
    rcases hname with ⟨-, hna, -⟩ | ⟨heq, -, -⟩
    · exact hna
    · exact absurd heq hne
  · intro hblank
    rcases hname with ⟨hne, -, -⟩ | ⟨-, hna, hcc⟩
    · exact absurd hblank hne
    · obtain ⟨K, hK, hall⟩ := deriveName_spec (st.defsByName.map Prod.fst) ht.module
      refine ⟨?_, K, ?_, ?_, hfresh⟩
      · rw [hcc, hna]
        exact lookupA_setA_self _ _ _
      · rw [hna, hK]
      · intro j hj
        exact hall j hj

/-- Witness for C8 at a registry already holding names m and m-1: the
derived name for a third handler of module m is m-2, written back into
the config. -/
theorem register_name_resolution_witness :
    ((registerStoreHandler (fun s => if s = "t" then some ⟨"m", true⟩ else none)
        [⟨"Host", false⟩]
        { defsByName := [("m", ⟨⟨"m", true⟩, [], []⟩), ("m-1", ⟨⟨"m", true⟩, [], []⟩)],
          defsByType := [], handlersByName := [], handlersByType := [], nextId := 0 }
        [("type", CVal.s "t"), ("models", CVal.ls ["Host"])]).2.2 = .ok ()) ∧
    (∃ n d moduleName ht,
      lookupA [("type", CVal.s "t"), ("models", CVal.ls ["Host"])] "type" =
        some (CVal.s moduleName) ∧
      (fun s => if s = "t" then some (⟨"m", true⟩ : HandlerType) else none) moduleName =
        some ht ∧
      d.htype = ht ∧
      (registerStoreHandler (fun s => if s = "t" then some ⟨"m", true⟩ else none)
          [⟨"Host", false⟩]
          { defsByName := [("m", ⟨⟨"m", true⟩, [], []⟩), ("m-1", ⟨⟨"m", true⟩, [], []⟩)],
            defsByType := [], handlersByName := [], handlersByType := [], nextId := 0 }
          [("type", CVal.s "t"), ("models", CVal.ls ["Host"])]).2.1.defsByName =
        ({ defsByName := [("m", ⟨⟨"m", true⟩, [], []⟩), ("m-1", ⟨⟨"m", true⟩, [], []⟩)],
           defsByType := [], handlersByName := [], handlersByType := [],
           nextId := 0 } : ServiceState).defsByName ++ [(n, d)] ∧
      (configName [("type", CVal.s "t"), ("models", CVal.ls ["Host"])] ≠ "" →
        n = configName [("type", CVal.s "t"), ("models", CVal.ls ["Host"])]) ∧
      (configName [("type", CVal.s "t"), ("models", CVal.ls ["Host"])] = "" →
        lookupA (registerStoreHandler (fun s => if s = "t" then some ⟨"m", true⟩ else none)
            [⟨"Host", false⟩]
            { defsByName := [("m", ⟨⟨"m", true⟩, [], []⟩), ("m-1", ⟨⟨"m", true⟩, [], []⟩)],
              defsByType := [], handlersByName := [], handlersByType := [], nextId := 0 }
            [("type", CVal.s "t"), ("models", CVal.ls ["Host"])]).1 "name" =
          some (CVal.s n) ∧
        ∃ K, n = nameCandidate ht.module K ∧
          (∀ j, j < K → nameCandidate ht.module j ∈
            (({ defsByName := [("m", ⟨⟨"m", true⟩, [], []⟩), ("m-1", ⟨⟨"m", true⟩, [], []⟩)],
                defsByType := [], handlersByName := [], handlersByType := [],
                nextId := 0 } : ServiceState).defsByName.map Prod.fst)) ∧
          n ∉ (({ defsByName := [("m", ⟨⟨"m", true⟩, [], []⟩), ("m-1", ⟨⟨"m", true⟩, [], []⟩)],
                  defsByType := [], handlersByName := [], handlersByType := [],
                  nextId := 0 } : ServiceState).defsByName.map Prod.fst))) :=
  ⟨by decide,
   register_name_resolution (fun s => if s = "t" then some ⟨"m", true⟩ else none)
     [⟨"Host", false⟩]
     { defsByName := [("m", ⟨⟨"m", true⟩, [], []⟩), ("m-1", ⟨⟨"m", true⟩, [], []⟩)],
       defsByType := [], handlersByName := [], handlersByType := [], nextId := 0 }
     [("type", CVal.s "t"), ("models", CVal.ls ["Host"])] (by decide)⟩

/-- C10: _register_store_handler mutates the caller's config dict in
place: by the time a zero-match, duplicate-name or duplicate-ownership
ConfigurationError is raised, the type key and the models key have
already been popped, and on the duplicate-ownership path a blank or
absent name has already been replaced by the derived name; the
definition maps stay untouched, but the config is not restored. -/
theorem register_config_mutation_on_failure (pl : String → Option HandlerType)
    (mts : List ModelDesc) (st : ServiceState) (c : Config) (e : StorageErr)
    (he : (registerStoreHandler pl mts st c).2.2 = .error e)
    (hkind : (∃ p, e = .configError (.noMatch p)) ∨
             (∃ n, e = .configError (.dupName n)) ∨
             (∃ t, e = .configError (.dupModel t))) :
    lookupA (registerStoreHandler pl mts st c).1 "type" = none ∧
    lookupA (registerStoreHandler pl mts st c).1 "models" = none ∧
    (registerStoreHandler pl mts st c).2.1 = st ∧
    (configName c = "" →
      ((∃ n, e = .configError (.dupName n)) ∨ (∃ t, e = .configError (.dupModel t))) →
      ∃ nm, lookupA (registerStoreHandler pl mts st c).1 "name" = some (CVal.s nm)) := by
  have e₁ : registerStoreHandler pl mts st c =
      ((registerStoreHandler pl mts st c).1,
       (registerStoreHandler pl mts st c).2.1, .error e) := by
    rw [← he]
  obtain ⟨hst, -, hnm, hdnm, hdmo⟩ := register_error_cases e₁
  rcases hkind with ⟨p, hk⟩ | ⟨n, hk⟩ | ⟨t, hk⟩
  · obtain ⟨h1, h2⟩ := hnm p hk
    refine ⟨h1, h2, hst, ?_⟩
    intro hblank hbad
    rcases hbad with ⟨n, hb⟩ | ⟨t, hb⟩ <;> simp [hk] at hb
  · obtain ⟨h1, h2, h3⟩ := hdnm n hk
    exact ⟨h1, h2, hst, fun hblank _ => h3 hblank⟩
  · obtain ⟨h1, h2, h3⟩ := hdmo t hk
    exact ⟨h1, h2, hst, fun hblank _ => h3 hblank⟩

/-- Witness for C10: re-registering the Host type under a blank name
raises the duplicate-ownership error with type and models popped and
the derived name written into the rejected config. -/
theorem register_config_mutation_on_failure_witness :
    ((registerStoreHandler (fun s => if s = "t" then some ⟨"m", true⟩ else none)
        [⟨"Host", false⟩]
        (registerStoreHandler (fun s => if s = "t" then some ⟨"m", true⟩ else none)
          [⟨"Host", false⟩] ServiceState.empty
          [("type", CVal.s "t"), ("name", CVal.s "a"), ("models", CVal.ls ["Host"])]).2.1
        [("type", CVal.s "t"), ("models", CVal.ls ["Host"])]).2.2 =
      .error (.configError (.dupModel "Host"))) ∧
    lookupA (registerStoreHandler (fun s => if s = "t" then some ⟨"m", true⟩ else none)
        [⟨"Host", false⟩]
        (registerStoreHandler (fun s => if s = "t" then some ⟨"m", true⟩ else none)
          [⟨"Host", false⟩] ServiceState.empty
          [("type", CVal.s "t"), ("name", CVal.s "a"), ("models", CVal.ls ["Host"])]).2.1
        [("type", CVal.s "t"), ("models", CVal.ls ["Host"])]).1 "type" = none ∧
    lookupA (registerStoreHandler (fun s => if s = "t" then some ⟨"m", true⟩ else none)
        [⟨"Host", false⟩]
        (registerStoreHandler (fun s => if s = "t" then some ⟨"m", true⟩ else none)
          [⟨"Host", false⟩] ServiceState.empty
          [("type", CVal.s "t"), ("name", CVal.s "a"), ("models", CVal.ls ["Host"])]).2.1
        [("type", CVal.s "t"), ("models", CVal.ls ["Host"])]).1 "models" = none ∧
    (registerStoreHandler (fun s => if s = "t" then some ⟨"m", true⟩ else none)
        [⟨"Host", false⟩]
        (registerStoreHandler (fun s => if s = "t" then some ⟨"m", true⟩ else none)
          [⟨"Host", false⟩] ServiceState.empty
          [("type", CVal.s "t"), ("name", CVal.s "a"), ("models", CVal.ls ["Host"])]).2.1
        [("type", CVal.s "t"), ("models", CVal.ls ["Host"])]).2.1 =
      (registerStoreHandler (fun s => if s = "t" then some ⟨"m", true⟩ else none)
        [⟨"Host", false⟩] ServiceState.empty
        [("type", CVal.s "t"), ("name", CVal.s "a"), ("models", CVal.ls ["Host"])]).2.1 ∧
    (configName [("type", CVal.s "t"), ("models", CVal.ls ["Host"])] = "" →
      ((∃ n, (StorageErr.configError (RegError.dupModel "Host")) = .configError (.dupName n)) ∨
       (∃ t, (StorageErr.configError (RegError.dupModel "Host")) = .configError (.dupModel t))) →
      ∃ nm, lookupA (registerStoreHandler (fun s => if s = "t" then some ⟨"m", true⟩ else none)
          [⟨"Host", false⟩]
          (registerStoreHandler (fun s => if s = "t" then some ⟨"m", true⟩ else none)
            [⟨"Host", false⟩] ServiceState.empty
            [("type", CVal.s "t"), ("name", CVal.s "a"), ("models", CVal.ls ["Host"])]).2.1
          [("type", CVal.s "t"), ("models", CVal.ls ["Host"])]).1 "name" =
        some (CVal.s nm)) :=
  ⟨by decide,
   register_config_mutation_on_failure (fun s => if s = "t" then some ⟨"m", true⟩ else none)
     [⟨"Host", false⟩]
     (registerStoreHandler (fun s => if s = "t" then some ⟨"m", true⟩ else none)
       [⟨"Host", false⟩] ServiceState.empty
       [("type", CVal.s "t"), ("name", CVal.s "a"), ("models", CVal.ls ["Host"])]).2.1
     [("type", CVal.s "t"), ("models", CVal.ls ["Host"])]
     (.configError (.dupModel "Host")) (by decide)
     (Or.inr (Or.inr ⟨"Host", rfl⟩))⟩

/-- C6 counterexample: _register_store_handler keys the definition map
by the trimmed name while _create_handler caches the instance under the
untrimmed config name, so for a definition registered with the explicit
name X surrounded by whitespace, every _get_handler call for a Host
with source X misses the cache and constructs a fresh instance: the two
calls return instances 0 and 1 and the second call performs another
construction. -/
theorem handler_cache_bypass_untrimmed_name :
    ((registerStoreHandler (fun s => if s = "t" then some ⟨"mod", true⟩ else none)
        [⟨"Host", false⟩] ServiceState.empty
        [("type", CVal.s "t"), ("name", CVal.s " X "), ("models", CVal.ls [])]).2.2 =
      .ok ()) ∧
    ((do
        let r₁ ← getHandler
          (registerStoreHandler (fun s => if s = "t" then some ⟨"mod", true⟩ else none)
            [⟨"Host", false⟩] ServiceState.empty
            [("type", CVal.s "t"), ("name", CVal.s " X "), ("models", CVal.ls [])]).2.1
          { mtype := ⟨"Host", false⟩, source := "X" }
        let r₂ ← getHandler r₁.2.1 { mtype := ⟨"Host", false⟩, source := "X" }
        pure (r₁.1, r₂.1, r₂.2.2) :
          Except StorageErr (Nat × Nat × List Event)) =
      .ok (0, 1, [Event.create "mod" 1])) ∧
    (0 : Nat) ≠ 1 := by
  decide

/-- C6 amended: provided every registered definition's stored config
name equals its registry key (true whenever explicit names carry no
surrounding whitespace, and always for derived names) and the by-type
map only holds definitions covering the keyed type, handler resolution
is idempotent and caching: a second _get_handler call for the same
record returns the same instance with no new construction and no state
change, and when the first call constructed the instance, a sibling
record whose type belongs to the same definition also resolves to that
same instance without construction. -/
theorem handler_resolution_idempotent (st : ServiceState) (m : ModelInst)
    (hnc : NamesConsistent st) (htc : TypeCoverage st)
    (h : Nat) (st₁ : ServiceState) (ev : List Event)
    (h1 : getHandler st m = .ok (h, st₁, ev)) :
    getHandler st₁ m = .ok (h, st₁, []) ∧
    (∀ m' : ModelInst, ∀ d : StoreDef,
       (m.mtype = hostType → strTrim m.source = "") →
       (m'.mtype = hostType → strTrim m'.source = "") →
       lookupA st.handlersByType m.mtype = none →
       lookupA st.defsByType m.mtype = some d →
       m'.mtype ∈ d.modelTypes →
       getHandler st₁ m' = .ok (h, st₁, [])) := by
  by_cases hcond : m.mtype = hostType ∧ strTrim m.source ≠ ""
  · have hvac : ∀ m' : ModelInst, ∀ d : StoreDef,
        (m.mtype = hostType → strTrim m.source = "") →
        (m'.mtype = hostType → strTrim m'.source = "") →
        lookupA st.handlersByType m.mtype = none →
        lookupA st.defsByType m.mtype = some d →
        m'.mtype ∈ d.modelTypes →
        getHandler st₁ m' = .ok (h, st₁, []) := by
      intro m' d hm hm' hby hdef hmem
      exact absurd (hm hcond.1) hcond.2
    unfold getHandler at h1
    rw [if_pos hcond] at h1
    rcases hby : lookupA st.handlersByName (strTrim m.source) with - | h0
    · rw [hby] at h1
      rcases hdef : lookupA st.defsByName (strTrim m.source) with - | defn
      · rw [hdef] at h1
        simp at h1
      · rw [hdef] at h1
        dsimp only at h1
        rw [createHandler_spec] at h1
        simp only [Except.ok.injEq, Prod.mk.injEq] at h1
        obtain ⟨eh, est, eev⟩ := h1
        subst eh
        subst est
        subst eev
        have hname : lookupA defn.config "name" = some (CVal.s (strTrim m.source)) :=
          hnc _ (lookupA_mem hdef)
        refine ⟨?_, hvac⟩
        unfold getHandler
        rw [if_pos hcond]
        rw [hname]
        dsimp only
        rw [lookupA_setA_self]
    · rw [hby] at h1
      simp only [Except.ok.injEq, Prod.mk.injEq] at h1
      obtain ⟨eh, est, eev⟩ := h1
      subst eh
      subst est
      subst eev
      refine ⟨?_, hvac⟩
      unfold getHandler
      rw [if_pos hcond, hby]
  · unfold getHandler at h1
    rw [if_neg hcond] at h1
    unfold getHandlerByType at h1
    rcases hby : lookupA st.handlersByType m.mtype with - | h0
    · rw [hby] at h1
      rcases hdef : lookupA st.defsByType m.mtype with - | defn
      · rw [hdef] at h1
        simp at h1
      · rw [hdef] at h1
        dsimp only at h1
        rw [createHandler_spec] at h1
        simp only [Except.ok.injEq, Prod.mk.injEq] at h1
        obtain ⟨eh, est, eev⟩ := h1
        subst eh
        subst est
        subst eev
        have hcover : m.mtype ∈ defn.modelTypes := htc _ (lookupA_mem hdef)
        constructor
        · unfold getHandler
          rw [if_neg hcond]
          unfold getHandlerByType
          dsimp only
          rw [lookupA_foldl_setA, if_pos hcover]
        · intro m' d hm hm' hby' hdef' hmem
          have hdd : d = defn := by injection hdef'.symm
          subst hdd
          have hcond' : ¬(m'.mtype = hostType ∧ strTrim m'.source ≠ "") := by
            rintro ⟨hh, hne⟩
            exact hne (hm' hh)
          unfold getHandler
          rw [if_neg hcond']
          unfold getHandlerByType
          dsimp only
          rw [lookupA_foldl_setA, if_pos hmem]
    · rw [hby] at h1
      simp only [Except.ok.injEq, Prod.mk.injEq] at h1
      obtain ⟨eh, est, eev⟩ := h1
      subst eh
      subst est
      subst eev
      constructor
      · unfold getHandler
        rw [if_neg hcond]
        unfold getHandlerByType
        rw [hby]
      · intro m' d hm hm' hby' hdef' hmem
        exact absurd hby' (by simp)

/-- Witness for the amended C6: with a consistently-named definition
owning Host and Hosts, the first resolution constructs instance 0 and a
second call, as well as a lookup for the sibling Hosts type, returns
the same instance with no further construction. -/
theorem handler_resolution_idempotent_witness :
    NamesConsistent
      { defsByName := [("h", ⟨⟨"mod", true⟩, [("name", CVal.s "h")],
          [⟨"Host", false⟩, ⟨"Hosts", false⟩]⟩)],
        defsByType := [(⟨"Host", false⟩, ⟨⟨"mod", true⟩, [("name", CVal.s "h")],
          [⟨"Host", false⟩, ⟨"Hosts", false⟩]⟩),
          (⟨"Hosts", false⟩, ⟨⟨"mod", true⟩, [("name", CVal.s "h")],
          [⟨"Host", false⟩, ⟨"Hosts", false⟩]⟩)],
        handlersByName := [], handlersByType := [], nextId := 0 } ∧
    getHandler
      { defsByName := [("h", ⟨⟨"mod", true⟩, [("name", CVal.s "h")],
          [⟨"Host", false⟩, ⟨"Hosts", false⟩]⟩)],
        defsByType := [(⟨"Host", false⟩, ⟨⟨"mod", true⟩, [("name", CVal.s "h")],
          [⟨"Host", false⟩, ⟨"Hosts", false⟩]⟩),
          (⟨"Hosts", false⟩, ⟨⟨"mod", true⟩, [("name", CVal.s "h")],
          [⟨"Host", false⟩, ⟨"Hosts", false⟩]⟩)],
        handlersByName := [("h", 0)],
        handlersByType := [(⟨"Host", false⟩, 0), (⟨"Hosts", false⟩, 0)], nextId := 1 }
      { mtype := ⟨"Host", false⟩ } =
      .ok (0,
        { defsByName := [("h", ⟨⟨"mod", true⟩, [("name", CVal.s "h")],
            [⟨"Host", false⟩, ⟨"Hosts", false⟩]⟩)],
          defsByType := [(⟨"Host", false⟩, ⟨⟨"mod", true⟩, [("name", CVal.s "h")],
            [⟨"Host", false⟩, ⟨"Hosts", false⟩]⟩),
            (⟨"Hosts", false⟩, ⟨⟨"mod", true⟩, [("name", CVal.s "h")],
            [⟨"Host", false⟩, ⟨"Hosts", false⟩]⟩)],
          handlersByName := [("h", 0)],
          handlersByType := [(⟨"Host", false⟩, 0), (⟨"Hosts", false⟩, 0)], nextId := 1 },
        []) ∧
    getHandler
      { defsByName := [("h", ⟨⟨"mod", true⟩, [("name", CVal.s "h")],
          [⟨"Host", false⟩, ⟨"Hosts", false⟩]⟩)],
        defsByType := [(⟨"Host", false⟩, ⟨⟨"mod", true⟩, [("name", CVal.s "h")],
          [⟨"Host", false⟩, ⟨"Hosts", false⟩]⟩),
          (⟨"Hosts", false⟩, ⟨⟨"mod", true⟩, [("name", CVal.s "h")],
          [⟨"Host", false⟩, ⟨"Hosts", false⟩]⟩)],
        handlersByName := [("h", 0)],
        handlersByType := [(⟨"Host", false⟩, 0), (⟨"Hosts", false⟩, 0)], nextId := 1 }
      { mtype := ⟨"Hosts", false⟩ } =
      .ok (0,
        { defsByName := [("h", ⟨⟨"mod", true⟩, [("name", CVal.s "h")],
            [⟨"Host", false⟩, ⟨"Hosts", false⟩]⟩)],
          defsByType := [(⟨"Host", false⟩, ⟨⟨"mod", true⟩, [("name", CVal.s "h")],
            [⟨"Host", false⟩, ⟨"Hosts", false⟩]⟩),
            (⟨"Hosts", false⟩, ⟨⟨"mod", true⟩, [("name", CVal.s "h")],
            [⟨"Host", false⟩, ⟨"Hosts", false⟩]⟩)],
          handlersByName := [("h", 0)],
          handlersByType := [(⟨"Host", false⟩, 0), (⟨"Hosts", false⟩, 0)], nextId := 1 },
        []) :=
  ⟨by unfold NamesConsistent; decide,
   (handler_resolution_idempotent
      { defsByName := [("h", ⟨⟨"mod", true⟩, [("name", CVal.s "h")],
          [⟨"Host", false⟩, ⟨"Hosts", false⟩]⟩)],
        defsByType := [(⟨"Host", false⟩, ⟨⟨"mod", true⟩, [("name", CVal.s "h")],
          [⟨"Host", false⟩, ⟨"Hosts", false⟩]⟩),
          (⟨"Hosts", false⟩, ⟨⟨"mod", true⟩, [("name", CVal.s "h")],
          [⟨"Host", false⟩, ⟨"Hosts", false⟩]⟩)],
        handlersByName := [], handlersByType := [], nextId := 0 }
      { mtype := ⟨"Host", false⟩ }
      (by unfold NamesConsistent; decide) (by unfold TypeCoverage; decide) 0
      { defsByName := [("h", ⟨⟨"mod", true⟩, [("name", CVal.s "h")],
          [⟨"Host", false⟩, ⟨"Hosts", false⟩]⟩)],
        defsByType := [(⟨"Host", false⟩, ⟨⟨"mod", true⟩, [("name", CVal.s "h")],
          [⟨"Host", false⟩, ⟨"Hosts", false⟩]⟩),
          (⟨"Hosts", false⟩, ⟨⟨"mod", true⟩, [("name", CVal.s "h")],
          [⟨"Host", false⟩, ⟨"Hosts", false⟩]⟩)],
        handlersByName := [("h", 0)],
        handlersByType := [(⟨"Host", false⟩, 0), (⟨"Hosts", false⟩, 0)], nextId := 1 }
      [Event.create "mod" 0] (by decide)).1,
   (handler_resolution_idempotent
      { defsByName := [("h", ⟨⟨"mod", true⟩, [("name", CVal.s "h")],
          [⟨"Host", false⟩, ⟨"Hosts", false⟩]⟩)],
        defsByType := [(⟨"Host", false⟩, ⟨⟨"mod", true⟩, [("name", CVal.s "h")],
          [⟨"Host", false⟩, ⟨"Hosts", false⟩]⟩),
          (⟨"Hosts", false⟩, ⟨⟨"mod", true⟩, [("name", CVal.s "h")],
          [⟨"Host", false⟩, ⟨"Hosts", false⟩]⟩)],
        handlersByName := [], handlersByType := [], nextId := 0 }
      { mtype := ⟨"Host", false⟩ }
      (by unfold NamesConsistent; decide) (by unfold TypeCoverage; decide) 0
      { defsByName := [("h", ⟨⟨"mod", true⟩, [("name", CVal.s "h")],
          [⟨"Host", false⟩, ⟨"Hosts", false⟩]⟩)],
        defsByType := [(⟨"Host", false⟩, ⟨⟨"mod", true⟩, [("name", CVal.s "h")],
          [⟨"Host", false⟩, ⟨"Hosts", false⟩]⟩),
          (⟨"Hosts", false⟩, ⟨⟨"mod", true⟩, [("name", CVal.s "h")],
          [⟨"Host", false⟩, ⟨"Hosts", false⟩]⟩)],
        handlersByName := [("h", 0)],
        handlersByType := [(⟨"Host", false⟩, 0), (⟨"Hosts", false⟩, 0)], nextId := 1 }
      [Event.create "mod" 0] (by decide)).2
     { mtype := ⟨"Hosts", false⟩ }
     ⟨⟨"mod", true⟩, [("name", CVal.s "h")], [⟨"Host", false⟩, ⟨"Hosts", false⟩]⟩
     (fun _ => rfl) (fun hh => absurd hh (by decide)) (by decide) (by decide) (by decide)⟩

/-- C9: for a list-form save whose elements all build, when the k-th
model's save step fails (validation or handler error) after the first k
items succeeded, the whole call returns that error (no partial-success
list), the trace is exactly the first k items' events followed by the
failing item's events (nothing from later items is attempted), and the
earlier items' save-primitive events remain in the trace (no
rollback). -/
theorem batch_save_partial_no_rollback (be : Backend) (mts : List ModelDesc)
    (st : ServiceState) (tn : String) (rs : List RawRep)
    (ms : List ModelInst) (k : Nat)
    {st₁ stf : ServiceState} {ev₁ evf : List Event} {vs : List ModelInst}
    {e : StorageErr}
    (hb : buildAll mts tn rs = .ok ms)
    (hk : k < ms.length)
    (hpref : saveLoop be st (ms.take k) = (st₁, ev₁, .ok vs))
    (hfail : saveModel be st₁ (ms.get ⟨k, hk⟩) = (stf, evf, .error e)) :
    onSave be mts st tn (.many rs) = (stf, ev₁ ++ evf, .error e) ∧
    (∀ j, ∀ hj : j < k, ∃ hh,
       Event.save hh (ms.get ⟨j, lt_trans hj hk⟩) ∈ ev₁ ++ evf) := by
  have hsplit : ms.take k ++ ms.get ⟨k, hk⟩ :: ms.drop (k + 1) = ms := by
    conv_rhs => rw [← List.take_append_drop k ms]
    rw [List.drop_eq_getElem_cons hk]
    rfl
  have hcons : saveLoop be st₁ (ms.get ⟨k, hk⟩ :: ms.drop (k + 1)) =
      (stf, evf, .error e) :=
    saveLoop_cons_error be st₁ _ _ hfail
  have happ := saveLoop_append (ms.get ⟨k, hk⟩ :: ms.drop (k + 1)) hpref
  rw [hcons] at happ
  dsimp only at happ
  rw [hsplit] at happ
  constructor
  · exact onSave_many_loop_error hb happ
  · intro j hj
    have hjlen : j < ms.length := lt_trans hj hk
    have hjtake : ms.get ⟨j, hjlen⟩ ∈ ms.take k := by
      refine List.getElem?_mem (n := j) ?_
      rw [List.getElem?_take_of_lt hj, List.getElem?_eq_getElem hjlen]
      rfl
    obtain ⟨hh, hmem⟩ := saveLoop_ok_saves hpref _ hjtake
    exact ⟨hh, List.mem_append_left _ hmem⟩

/-- Witness for C9 at k equal zero: a single-element batch whose model
type has no registered handler fails at the first save step, the call
returns its error and there is nothing earlier to roll back. -/
theorem batch_save_partial_no_rollback_witness :
    buildAll [⟨"Cluster", false⟩] "Cluster"
      [RawRep.good { mtype := ⟨"Cluster", false⟩ }] =
      .ok [{ mtype := ⟨"Cluster", false⟩ }] ∧
    saveModel trivialBackend ServiceState.empty { mtype := ⟨"Cluster", false⟩ } =
      (ServiceState.empty, [], .error (.keyError "Cluster")) ∧
    onSave trivialBackend [⟨"Cluster", false⟩] ServiceState.empty "Cluster"
      (.many [RawRep.good { mtype := ⟨"Cluster", false⟩ }]) =
      (ServiceState.empty, [], .error (.keyError "Cluster")) :=
  ⟨rfl, rfl,
   (batch_save_partial_no_rollback trivialBackend [⟨"Cluster", false⟩]
     ServiceState.empty "Cluster" [RawRep.good { mtype := ⟨"Cluster", false⟩ }]
     [{ mtype := ⟨"Cluster", false⟩ }] 0 rfl (by decide) rfl rfl).1⟩
